import Mathlib

/-!
Trireme: the expiring store (`cache/cache.go`), the flow context
(`enforcer/connection/connection.go`), the claims codec (`enforcer/utils/tokens`), flow
reporting (`enforcer/utils.go`) and the supervisor (`supervisor/supervisor.go`).

The first part is a shallow embedding of the Go package `cache` and of the part of the
Go runtime its code drives (`time.AfterFunc`, `Timer.Stop`, `time.Now`).

* The Go map `map[interface{}]entry` is an association list with unique keys.
* A `*time.Timer` is the index of the timer in the list of all timers the
  runtime ever created, `nil` is `none`.  Every closure handed to
  `time.AfterFunc` in `cache.go` is `c.removeNotify(u, true)` followed by a
  warning when that call fails, so a timer only records the captured key `u`.
* An `ExpirationNotifier` is a function value; a call `val.expirer(c, u, val.value)`
  is recorded in the trace `notified`.
* Every exported method runs as one atomic step (the body the mutex protects,
  together with the timer it arms just before taking the lock).
* An interleaving (`Ev`) is finer: the prologue of Add (`armTimer`) and the part of Add
  that runs under the lock (`AddLocked`) are separate steps, and so are the expiry of a
  timer (`expire`) and the run of its closure under the lock (`runClosure`).
* Errors built with `fmt.Errorf` are their message strings.
-/

set_option linter.unusedSectionVars false

namespace Trireme

/-- Identity of a Go function value of type `ExpirationNotifier`. -/
abbrev ExpirationNotifier := Nat

/-- The Go struct `entry`: a single line in the datastore. -/
structure entry (V : Type) where
  value : V
  timestamp : Int
  timer : Option Nat
  expirer : Option ExpirationNotifier

/-- The Go struct `Cache` (the embedded `sync.RWMutex` is the atomicity of the steps). -/
structure Cache (K V : Type) where
  data : AList (fun _ : K => entry V)
  lifetime : Int
  expirer : Option ExpirationNotifier

/-- Life cycle of a runtime timer: armed, cancelled by `Stop`, or fired. -/
inductive TimerStatus where
  | pending
  | stopped
  | fired
  deriving DecidableEq, Repr

/-- A timer created by `time.AfterFunc(c.lifetime, func() { c.removeNotify(u, true) ... })`. -/
structure Timer (K : Type) where
  key : K
  deadline : Int
  status : TimerStatus

/-- The cache together with the runtime state its code reads and writes. -/
structure Store (K V : Type) where
  c : Cache K V
  now : Int
  timers : List (Timer K)
  notified : List (ExpirationNotifier × K × V)
  warned : List K

variable {K V : Type}

/-- NewCache creates a new data cache: lifetime `-1`, no notifier. -/
def NewCache : Cache K V :=
  { data := ∅, lifetime := -1, expirer := none }

/-- NewCacheWithExpiration creates a new data cache with the given lifetime. -/
def NewCacheWithExpiration (lifetime : Int) : Cache K V :=
  { data := ∅, lifetime := lifetime, expirer := none }

/-- NewCacheWithExpirationNotifier creates a new data cache with notifier. -/
def NewCacheWithExpirationNotifier (lifetime : Int) (expirer : Option ExpirationNotifier) :
    Cache K V :=
  { data := ∅, lifetime := lifetime, expirer := expirer }

/-- A freshly constructed cache in a runtime with no timer, at time `0`. -/
def Store.start (c : Cache K V) : Store K V :=
  { c := c, now := 0, timers := [], notified := [], warned := [] }

/-- Replaces the map of the cache. -/
def Store.setData (s : Store K V) (d : AList (fun _ : K => entry V)) : Store K V :=
  { s with c := { s.c with data := d } }

/-- The runtime call `time.AfterFunc(d, f)` where `f` removes key `u`: a new pending
timer that is due `d` after the current time; its handle is returned. -/
def AfterFunc (d : Int) (u : K) (s : Store K V) : Nat × Store K V :=
  (s.timers.length,
    { s with timers := s.timers ++ [{ key := u, deadline := s.now + d, status := .pending }] })

/-- Effect of `Stop` on one timer: a pending timer is cancelled, any other is left as is. -/
def Timer.Stop (t : Timer K) : Timer K :=
  match t.status with
  | .pending => { t with status := .stopped }
  | _ => t

/-- The Go statement `if x.timer != nil { x.timer.Stop() }`. -/
def stopTimer (timer : Option Nat) (s : Store K V) : Store K V :=
  match timer with
  | none => s
  | some id => { s with timers := s.timers.modify Timer.Stop id }

/-- The prologue shared by Add, Update, AddOrUpdate and LockedModify:
`var timer *time.Timer; if c.lifetime != -1 { timer = time.AfterFunc(c.lifetime, ...) }`. -/
def armTimer (u : K) (s : Store K V) : Option Nat × Store K V :=
  if s.c.lifetime ≠ -1 then
    ((AfterFunc s.c.lifetime u s).1, (AfterFunc s.c.lifetime u s).2)
  else
    (none, s)

section ops
variable [DecidableEq K]

/-- Add stores an entry into the cache and updates the timestamp. -/
def Add (u : K) (value : V) (s : Store K V) : Except String Unit × Store K V :=
  let timer := (armTimer u s).1
  let s1 := (armTimer u s).2
  let t := s1.now
  match s1.c.data.lookup u with
  | none =>
    (.ok (), s1.setData (s1.c.data.insert u
      { value := value, timestamp := t, timer := timer, expirer := s1.c.expirer }))
  | some _ => (.error "Item Exists - Use update", s1)

/-- Update changes the value of an entry into the cache and updates the timestamp. -/
def Update (u : K) (value : V) (s : Store K V) : Except String Unit × Store K V :=
  let timer := (armTimer u s).1
  let s1 := (armTimer u s).2
  let t := s1.now
  match s1.c.data.lookup u with
  | some e =>
    let s2 := stopTimer e.timer s1
    (.ok (), s2.setData (s2.c.data.insert u
      { value := value, timestamp := t, timer := timer, expirer := s2.c.expirer }))
  | none => (.error "Cannot update item - it doesn't exist", s1)

/-- AddOrUpdate adds a new value in the cache or updates the existing value if needed. -/
def AddOrUpdate (u : K) (value : V) (s : Store K V) : Store K V :=
  let timer := (armTimer u s).1
  let s1 := (armTimer u s).2
  let t := s1.now
  let s2 :=
    match s1.c.data.lookup u with
    | some e => stopTimer e.timer s1
    | none => s1
  s2.setData (s2.c.data.insert u
    { value := value, timestamp := t, timer := timer, expirer := s2.c.expirer })

/-- Get retrieves the entry from the cache. -/
def Get (u : K) (s : Store K V) : Except String V × Store K V :=
  match s.c.data.lookup u with
  | none => (.error "Item does not exist", s)
  | some e => (.ok e.value, s)

/-- The call `val.expirer(c, u, val.value)` guarded by `notify && val.expirer != nil`. -/
def callExpirer (notify : Bool) (u : K) (val : entry V) (s : Store K V) : Store K V :=
  match notify, val.expirer with
  | true, some f => { s with notified := s.notified ++ [(f, u, val.value)] }
  | _, _ => s

/-- The function removeNotify removes the entry from the cache and optionally notifies;
returns error if not there. -/
def removeNotify (u : K) (notify : Bool) (s : Store K V) : Except String Unit × Store K V :=
  match s.c.data.lookup u with
  | none => (.error "Item does not exist", s)
  | some val =>
    let s1 := stopTimer val.timer s
    let s2 := callExpirer notify u val s1
    (.ok (), s2.setData (s2.c.data.erase u))

/-- Remove removes the entry from the cache and returns error if not there. -/
def Remove (u : K) (s : Store K V) : Except String Unit × Store K V :=
  removeNotify u false s

/-- SizeOf returns the number of elements in the cache. -/
def SizeOf (s : Store K V) : Nat × Store K V :=
  (s.c.data.entries.length, s)

/-- LockedModify locks the data store and replaces the value by `add value increment`. -/
def LockedModify (u : K) (add : V → V → V) (increment : V) (s : Store K V) :
    Except String V × Store K V :=
  let timer := (armTimer u s).1
  let s1 := (armTimer u s).2
  let t := s1.now
  match s1.c.data.lookup u with
  | none => (.error "Item not found", s1)
  | some e =>
    let s2 := stopTimer e.timer s1
    let e1 : entry V :=
      { value := add e.value increment, timestamp := t, timer := timer, expirer := s2.c.expirer }
    (.ok e1.value, s2.setData (s2.c.data.insert u e1))

/-- The logging call `zap.L().Warn("Failed to remove item", key)`. -/
def warn (u : K) (s : Store K V) : Store K V :=
  { s with warned := s.warned ++ [u] }

/-- The closure every method hands to `time.AfterFunc`:
`if err := c.removeNotify(u, true); err != nil { zap.L().Warn(...) }`. -/
def timerFunc (u : K) (s : Store K V) : Store K V :=
  match (removeNotify u true s).1 with
  | .error _ => warn u (removeNotify u true s).2
  | .ok _ => (removeNotify u true s).2

/-- The runtime marks timer `id` as fired. -/
def markFired (id : Nat) (s : Store K V) : Store K V :=
  { s with timers := s.timers.modify (fun x => { x with status := .fired }) id }

/-- The runtime fires timer `id`: allowed only for a pending timer whose deadline has
been reached; the timer becomes fired and its closure runs. -/
def fire (id : Nat) (s : Store K V) : Option (Store K V) :=
  match s.timers[id]? with
  | none => none
  | some t =>
    if t.status = .pending ∧ t.deadline ≤ s.now then
      some (timerFunc t.key (markFired id s))
    else none

/-- Time passes: the clock advances by `d`. -/
def sleep (d : Nat) (s : Store K V) : Store K V :=
  { s with now := s.now + d }

/-- One step of a history: a call of an exported method, a timer firing, or time passing. -/
inductive Op (K V : Type) where
  | add (u : K) (value : V)
  | update (u : K) (value : V)
  | addOrUpdate (u : K) (value : V)
  | get (u : K)
  | remove (u : K)
  | sizeOf
  | lockedModify (u : K) (add : V → V → V) (increment : V)
  | fire (id : Nat)
  | sleep (d : Nat)

/-- State after one step; `none` when the step is a firing the runtime cannot perform. -/
def step (s : Store K V) : Op K V → Option (Store K V)
  | .add u value => some (Add u value s).2
  | .update u value => some (Update u value s).2
  | .addOrUpdate u value => some (AddOrUpdate u value s)
  | .get u => some (Get u s).2
  | .remove u => some (Remove u s).2
  | .sizeOf => some (SizeOf s).2
  | .lockedModify u add increment => some (LockedModify u add increment s).2
  | .fire id => fire id s
  | .sleep d => some (sleep d s)

/-- State after a history of steps. -/
def run (s : Store K V) : List (Op K V) → Option (Store K V)
  | [] => some s
  | op :: ops =>
    match step s op with
    | none => none
    | some s1 => run s1 ops

/-- Key `u` has an entry in the store. -/
def present (u : K) (s : Store K V) : Bool :=
  (s.c.data.lookup u).isSome

/-- Timer `id` is pending: armed, not cancelled, not fired. -/
def isPending (id : Nat) (s : Store K V) : Bool :=
  match s.timers[id]? with
  | some t => decide (t.status = .pending)
  | none => false

/-- The calls `LockedModify u add d` for the deltas `d` of a list, each run as one atomic
step, one after the other in the order of the list. -/
def lockedModifyAll (u : K) (add : V → V → V) (ds : List V) (s : Store K V) : Store K V :=
  ds.foldl (fun st d => (LockedModify u add d st).2) s

/-- Value of a Go `int` (64 bits, two's complement) holding the integer `x` after overflow. -/
def wrap64 (x : Int) : Int :=
  (x + 2 ^ 63) % 2 ^ 64 - 2 ^ 63

/-- The combine function `sum` on Go `int` values: `a + b` with 64-bit overflow. -/
def sum64 (a b : Int) : Int :=
  wrap64 (a + b)

/-- The key a step operates on in state `s`; for a firing, the key its timer was armed for. -/
def opKey (s : Store K V) : Op K V → Option K
  | .add u _ => some u
  | .update u _ => some u
  | .addOrUpdate u _ => some u
  | .get u => some u
  | .remove u => some u
  | .sizeOf => none
  | .lockedModify u _ _ => some u
  | .fire id => (s.timers[id]?).map (fun t => t.key)
  | .sleep _ => none

/-- No step of the history, run from `s`, operates on key `k`. -/
def avoids (k : K) (s : Store K V) : List (Op K V) → Prop
  | [] => True
  | op :: ops => opKey s op ≠ some k ∧ ∀ s1, step s op = some s1 → avoids k s1 ops

/-- The recorded notifier calls whose key is `k`. -/
def notifiedFor (k : K) (s : Store K V) : List (ExpirationNotifier × K × V) :=
  s.notified.filter (fun x => decide (x.2.1 = k))

/-- Timer handles are sound: a handle held by the entry of key `u` names a timer of the
runtime that was armed for `u`. -/
def WF (s : Store K V) : Prop :=
  ∀ (u : K) (e : entry V) (id : Nat), s.c.data.lookup u = some e → e.timer = some id →
    ∃ t, s.timers[id]? = some t ∧ t.key = u

/-- Timer/entry invariant: every entry holds a pending timer armed for its key, and every
pending timer is the timer held by the current entry of its key. -/
def timerEntryInvariant (s : Store K V) : Prop :=
  (∀ (u : K) (e : entry V), s.c.data.lookup u = some e →
    ∃ id t, e.timer = some id ∧ s.timers[id]? = some t ∧ t.status = .pending ∧ t.key = u) ∧
  (∀ (id : Nat) (t : Timer K), s.timers[id]? = some t → t.status = .pending →
    ∃ e, s.c.data.lookup t.key = some e ∧ e.timer = some id)

/-- What a step on key `u` may change between `s` and `s1`: timers armed for other keys,
entries of other keys, notifier calls for other keys, the configuration and the clock are
kept; timers keep their key; a new entry of `u` holds a sound handle. -/
structure Touches (u : K) (s s1 : Store K V) : Prop where
  timers_other : ∀ (n : Nat) (t : Timer K), s.timers[n]? = some t → t.key ≠ u →
    s1.timers[n]? = some t
  timers_key : ∀ (n : Nat) (t : Timer K), s.timers[n]? = some t →
    ∃ t1, s1.timers[n]? = some t1 ∧ t1.key = t.key
  data_other : ∀ k : K, k ≠ u → s1.c.data.lookup k = s.c.data.lookup k
  data_self : ∀ e : entry V, s1.c.data.lookup u = some e →
    s.c.data.lookup u = some e ∨
      ∀ id, e.timer = some id → ∃ t, s1.timers[id]? = some t ∧ t.key = u
  notified_other : ∀ k : K, k ≠ u → notifiedFor k s1 = notifiedFor k s
  lifetime : s1.c.lifetime = s.c.lifetime
  expirer : s1.c.expirer = s.c.expirer
  now : s1.now = s.now

/-- A history in which an Add on key 1 fails at time 1, the entry is updated at time 5
under lifetime 10, and the timer armed by the failed Add fires at time 11. -/
def failedAddHistory : List (Op Nat Nat) :=
  [.add 1 100, .sleep 1, .add 1 200, .sleep 4, .update 1 300, .sleep 6, .fire 1]

/-- The part of Add that runs between `c.Lock()` and `c.Unlock()`: the existence check and
the insert. The timer `timer` and the time `t` were obtained by the caller before it took
the lock. -/
def AddLocked (timer : Option Nat) (t : Int) (u : K) (value : V) (s : Store K V) :
    Except String Unit × Store K V :=
  match s.c.data.lookup u with
  | none =>
    (.ok (), s.setData (s.c.data.insert u
      { value := value, timestamp := t, timer := timer, expirer := s.c.expirer }))
  | some _ => (.error "Item Exists - Use update", s)

/-- The runtime lets timer `id` expire: allowed only for a pending timer whose deadline has
been reached. The timer becomes fired and its closure is started in a goroutine of its own;
the closure runs once it gets the lock (`runClosure`), also if `Stop` is called on the
timer in between. -/
def expire (id : Nat) (s : Store K V) : Option (Store K V) :=
  match s.timers[id]? with
  | none => none
  | some t =>
    if t.status = .pending ∧ t.deadline ≤ s.now then some (markFired id s) else none

/-- The closure of the expired timer `id` gets the lock and runs. The status of a timer
does not record that its closure has run, so a closure may also run again; the second run
finds what any late closure finds. -/
def runClosure (id : Nat) (s : Store K V) : Option (Store K V) :=
  match s.timers[id]? with
  | none => none
  | some t => if t.status = .fired then some (timerFunc t.key s) else none

end ops

/-! ## The flow context (`enforcer/connection/connection.go`)

The package variable `TraceLogging` is an argument of the methods that read it.  A line
of `c.logs` and the text returned by `String()` are kept as their format together with
the values rendered into it. -/

/-- TCPFlowState identifies the constants of the state of a TCP connection (a Go `int`). -/
abbrev TCPFlowState := Int

/-- TCPSynSend is the state where the Syn packets has been send, but no response has
been received. -/
def TCPSynSend : TCPFlowState := 0

/-- TCPSynReceived indicates that the syn packet has been received. -/
def TCPSynReceived : TCPFlowState := 1

/-- TCPSynAckSend indicates that the SynAck packet has been send. -/
def TCPSynAckSend : TCPFlowState := 2

/-- TCPSynAckReceived is the state where the SynAck has been received. -/
def TCPSynAckReceived : TCPFlowState := 3

/-- TCPAckSend indicates that the ack packets has been send. -/
def TCPAckSend : TCPFlowState := 4

/-- TCPAckProcessed is the state that the negotiation has been completed. -/
def TCPAckProcessed : TCPFlowState := 5

/-- AuthInfo keeps authentication information about a connection. -/
structure AuthInfo where
  LocalContext : List Nat
  RemoteContext : List Nat
  RemoteContextID : String
  RemotePublicKey : Option Nat
  RemoteIP : String
  RemotePort : String
  deriving DecidableEq

/-- The text `fmt.Sprintf("state:%d auth: %+v", c.state, c.Auth)`: the two values it renders. -/
structure ConnText where
  state : TCPFlowState
  auth : AuthInfo
  deriving DecidableEq

/-- A line of `c.logs`: which format wrote it and the values rendered into it. -/
inductive LogLine where
  | setState (conn : ConnText) (state : TCPFlowState)
  | flowReported (duplicate : Bool) (dropped : Bool) (conn : ConnText)
  | pktRegistered (flowHash tcpFlags : String) (conn : ConnText)
  deriving DecidableEq

/-- TCPConnection is information regarding TCP Connection. -/
structure TCPConnection where
  state : TCPFlowState
  Auth : AuthInfo
  flowReported : Bool
  logs : List LogLine
  deriving DecidableEq

/-- Level of a record written through `zap.L()`. -/
inductive ZapLevel where
  | debug
  | warning
  | error
  deriving DecidableEq

/-- A record written through `zap.L()` by Cleanup: level, message, the field "connection"
and the field "logs" (every line of `c.logs` with its index). -/
structure ZapRecord where
  level : ZapLevel
  msg : String
  connection : ConnText
  logs : List (Nat × LogLine)
  deriving DecidableEq

/-- String returns a printable version of connection. -/
def connText (c : TCPConnection) : ConnText :=
  { state := c.state, auth := c.Auth }

/-- GetState is used to return the state. -/
def GetState (c : TCPConnection) : TCPFlowState :=
  c.state

/-- SetState is used to setup the state for the TCP connection. -/
def SetState (TraceLogging : Int) (state : TCPFlowState) (c : TCPConnection) : TCPConnection :=
  let c1 : TCPConnection := { c with state := state }
  if TraceLogging = 0 then c1
  else { c1 with logs := c1.logs ++ [.setState (connText c1) state] }

/-- SetReported is used to track if a flow is reported. -/
def SetReported (TraceLogging : Int) (dropped : Bool) (c : TCPConnection) : TCPConnection :=
  let repeatedReporting : Bool := if !c.flowReported then false else true
  let c1 : TCPConnection := if !c.flowReported then { c with flowReported := true } else c
  if TraceLogging = 0 then c1
  else { c1 with logs := c1.logs ++ [.flowReported repeatedReporting dropped (connText c1)] }

/-- SetPacketInfo is used to setup the state for the TCP connection. -/
def SetPacketInfo (TraceLogging : Int) (flowHash tcpFlags : String) (c : TCPConnection) :
    TCPConnection :=
  if TraceLogging = 0 then c
  else { c with logs := c.logs ++ [.pktRegistered flowHash tcpFlags (connText c)] }

/-- Cleanup will provide information when a connection is removed by a timer. -/
def Cleanup (_expiration : Bool) (c : TCPConnection) : ZapRecord × TCPConnection :=
  let logStr := c.logs.enum
  if !c.flowReported then
    ({ level := .error, msg := "Connection not reported", connection := connText c,
       logs := logStr }, c)
  else
    ({ level := .debug, msg := "Connection reported", connection := connText c,
       logs := logStr }, c)

/-- The function initConnection creates the state information for a new connection; the
bytes returned by `crypto.GenerateRandomBytes(32)` are the argument `nonse`. -/
def initConnection (nonse : List Nat) (s : AuthInfo) : AuthInfo :=
  { s with LocalContext := nonse }

/-- NewTCPConnection returns a TCPConnection information struct. -/
def NewTCPConnection (trackFlowReporting : Bool) (nonse : List Nat) : TCPConnection :=
  { state := TCPSynSend
    flowReported := trackFlowReporting
    logs := []
    Auth := initConnection nonse
      { LocalContext := [], RemoteContext := [], RemoteContextID := "",
        RemotePublicKey := none, RemoteIP := "", RemotePort := "" } }

/-- A call of a method of the flow context. -/
inductive ConnOp where
  | setState (state : TCPFlowState)
  | setReported (dropped : Bool)
  | setPacketInfo (flowHash tcpFlags : String)
  | cleanup (expiration : Bool)
  | text
  deriving DecidableEq

/-- The flow context after one method call. -/
def ConnOp.apply (TraceLogging : Int) (c : TCPConnection) : ConnOp → TCPConnection
  | .setState state => SetState TraceLogging state c
  | .setReported dropped => SetReported TraceLogging dropped c
  | .setPacketInfo flowHash tcpFlags => SetPacketInfo TraceLogging flowHash tcpFlags c
  | .cleanup expiration => (Cleanup expiration c).2
  | .text => c

/-- The flow context after a sequence of method calls. -/
def applyOps (TraceLogging : Int) (c : TCPConnection) (ops : List ConnOp) : TCPConnection :=
  ops.foldl (ConnOp.apply TraceLogging) c

/-- The call is a SetReported. -/
def ConnOp.isSetReported : ConnOp → Bool
  | .setReported _ => true
  | _ => false

/-- Identity of the function value `TCPConnectionExpirationNotifier` as a notifier of
the store. -/
def tcpConnectionNotifier : ExpirationNotifier := 1

/-- TCPConnectionExpirationNotifier handles processing the expiration of an element: the
records written by its call; `item` is `some conn` when the type assertion
`item.(*TCPConnection)` succeeds. -/
def TCPConnectionExpirationNotifier (item : Option TCPConnection) : List ZapRecord :=
  match item with
  | some conn => [(Cleanup true conn).1]
  | none => []

section counting
variable [DecidableEq K] [DecidableEq V]

/-- The records Cleanup wrote through the notifier calls of the store, each with the item
(the flow reference held by the store) it was called on; `deref` gives the flow context
behind an item. -/
def cleanupLog (deref : V → Option TCPConnection) (s : Store K V) : List (V × ZapRecord) :=
  (s.notified.filter (fun x => decide (x.1 = tcpConnectionNotifier))).flatMap
    (fun x => (TCPConnectionExpirationNotifier (deref x.2.2)).map (fun r => (x.2.2, r)))

/-- Number of entries of a map that hold the value `p`. -/
def holdersD (p : V) (d : AList (fun _ : K => entry V)) : Nat :=
  (d.entries.filter (fun x => decide (x.2.value = p))).length

/-- Number of entries of the store that hold the value `p`. -/
def holders (p : V) (s : Store K V) : Nat :=
  holdersD p s.c.data

/-- Number of recorded notifier calls on the value `p`. -/
def notifiedCount (p : V) (s : Store K V) : Nat :=
  (s.notified.filter (fun x => decide (x.2.2 = p))).length

/-- The step, taken in state `s`, stores the value `p` under a key that does not hold
`p` already. -/
def opStores (p : V) (s : Store K V) : Op K V → Bool
  | .add u value =>
    match s.c.data.lookup u with
    | some _ => false
    | none => decide (value = p)
  | .update u value =>
    match s.c.data.lookup u with
    | some e => decide (value = p) && !decide (e.value = p)
    | none => false
  | .addOrUpdate u value =>
    match s.c.data.lookup u with
    | some e => decide (value = p) && !decide (e.value = p)
    | none => decide (value = p)
  | .lockedModify u add increment =>
    match s.c.data.lookup u with
    | some e => decide (add e.value increment = p) && !decide (e.value = p)
    | none => false
  | _ => false

/-- The step, taken in state `s`, is a Remove that deletes an entry holding `p`. -/
def opRemoves (p : V) (s : Store K V) : Op K V → Bool
  | .remove u =>
    match s.c.data.lookup u with
    | some e => decide (e.value = p)
    | none => false
  | _ => false

/-- Number of steps of the history, run from `s`, that store the value `p`. -/
def storesOf (p : V) : Store K V → List (Op K V) → Nat
  | _, [] => 0
  | s, op :: ops =>
    (opStores p s op).toNat +
      match step s op with
      | none => 0
      | some s1 => storesOf p s1 ops

/-- Number of steps of the history, run from `s`, that are a Remove deleting an entry
that holds `p`. -/
def explicitRemovalsOf (p : V) : Store K V → List (Op K V) → Nat
  | _, [] => 0
  | s, op :: ops =>
    (opRemoves p s op).toNat +
      match step s op with
      | none => 0
      | some s1 => explicitRemovalsOf p s1 ops

end counting

/-! ## The claims codec (`enforcer/utils/tokens`)

Only the test file of this package is among the sources; the codec itself (`jwt.go`) is
modelled from the specification and from what `jwt_test.go` expects. -/

/-- Modelled from the spec: the type ConnectionClaims of the missing `jwt.go`, with the
field names the test uses: tags `T` (nil on ACK tokens), nonces `LCL` and `RMT`, key
material `EK`. -/
structure ConnectionClaims where
  T : Option (List (String × String))
  LCL : List Nat
  RMT : List Nat
  EK : List Nat
  deriving DecidableEq

/-- Modelled from the spec: the error kinds of the missing codec. -/
inductive CodecError where
  | InvalidConfiguration
  | InvalidToken
  deriving DecidableEq

/-- Modelled from the spec: the secrets of the missing `secrets.go`, either a shared
secret (one symmetric key) or PKI (local private key, the public key of the local
certificate, the trusted CA bundle). -/
inductive Secrets where
  | psk (key : Nat)
  | pki (privateKey : Nat) (publicKey : Nat) (ca : Nat)
  deriving DecidableEq

/-- Modelled from the spec: the signing method fixed at construction; the test expects
HS256 for a shared secret and ES256 for PKI. -/
inductive SigningMethod where
  | HS256
  | ES256
  deriving DecidableEq

/-- Modelled from the spec: the type JWTConfig of the missing `jwt.go`, with the fields
the test reads. -/
structure JWTConfig where
  ValidityPeriod : Int
  Issuer : String
  signMethod : SigningMethod
  secrets : Secrets
  deriving DecidableEq

/-- Modelled from the spec: the signed content of a token of the missing `jwt.go`: the
claims, the issuer field and the expiration derived from the validity period. -/
structure SignedClaims where
  claims : ConnectionClaims
  issuer : String
  expiresAt : Int
  deriving DecidableEq

/-- Modelled from the spec: a token produced by the missing CreateAndSign: how it was
created (ACK or not), the signing method, the signed content, the signature and, for a
PKI token that is not an ACK, the public key of the certificate sent along. -/
structure Token where
  ack : Bool
  method : SigningMethod
  content : SignedClaims
  signature : Nat
  cert : Option Nat
  deriving DecidableEq

/-- Modelled from the spec: the cryptographic primitives the missing codec calls, taken
as parameters: the MAC of the shared-secret model, signing and verification of the PKI
model, and whether a public key chains to a trusted authority of a CA bundle. -/
structure Scheme where
  mac : Nat → SignedClaims → Nat
  sign : Nat → SignedClaims → Nat
  verify : Nat → SignedClaims → Nat → Bool
  chains : Nat → Nat → Bool

/-- Modelled from the spec: the fixed issuer width of the missing `jwt.go`; the test
expects "TRIREME" padded to 36 characters and a 40-character name to be rejected. -/
def MaxServerName : Nat := 36

/-- Modelled from the spec: NewJWT of the missing `jwt.go`. Construction fails with
InvalidConfiguration if the identifier does not fit the fixed issuer width or if the
secrets are nil, the two causes the error taxonomy of the spec names; otherwise the
identifier is right-padded with spaces to the fixed width. The spec leaves any limit on
the validity period to the implementation and neither the spec nor the test states one,
so every validity period is accepted. -/
def NewJWT (validity : Int) (issuer : String) (secrets : Option Secrets) :
    Except CodecError JWTConfig :=
  if issuer.length > MaxServerName then .error .InvalidConfiguration
  else
    match secrets with
    | none => .error .InvalidConfiguration
    | some (.psk key) =>
      .ok { ValidityPeriod := validity
            Issuer := issuer ++ String.mk (List.replicate (MaxServerName - issuer.length) ' ')
            signMethod := .HS256
            secrets := .psk key }
    | some (.pki privateKey publicKey ca) =>
      .ok { ValidityPeriod := validity
            Issuer := issuer ++ String.mk (List.replicate (MaxServerName - issuer.length) ' ')
            signMethod := .ES256
            secrets := .pki privateKey publicKey ca }

/-- Modelled from the spec: CreateAndSign of the missing `jwt.go`, called at time `now`.
The claims are serialized into a signed token; for an ACK the tags are omitted; the token
embeds an expiration derived from the validity period. -/
def CreateAndSign (sch : Scheme) (c : JWTConfig) (now : Int) (isAck : Bool)
    (claims : ConnectionClaims) : Token :=
  let content : SignedClaims :=
    { claims := if isAck then { claims with T := none } else claims
      issuer := c.Issuer
      expiresAt := now + c.ValidityPeriod }
  match c.secrets with
  | .psk key =>
    { ack := isAck, method := c.signMethod, content := content,
      signature := sch.mac key content, cert := none }
  | .pki privateKey publicKey _ =>
    { ack := isAck, method := c.signMethod, content := content,
      signature := sch.sign privateKey content,
      cert := if isAck then none else some publicKey }

/-- Modelled from the spec: signature verification of the missing Decode. A shared-secret
token must carry the MAC under the shared key; a PKI token is verified with the public key
supplied by the caller or else with the one sent along with the token, and that key must
chain to a trusted authority. -/
def verifySignature (sch : Scheme) (c : JWTConfig) (t : Token) (peerKey : Option Nat) : Bool :=
  match c.secrets with
  | .psk key => decide (t.signature = sch.mac key t.content)
  | .pki _ _ ca =>
    match (match peerKey with | some k => some k | none => t.cert) with
    | none => false
    | some k => sch.chains ca k && sch.verify k t.content t.signature

/-- Modelled from the spec: Decode of the missing `jwt.go`, called at time `now`. It fails
with InvalidToken if the token is absent, was created in the other mode, uses another
signing method, is expired, or fails signature verification; on success it returns the
embedded nonces and, for a token that is not an ACK, the tag set. -/
def Decode (sch : Scheme) (c : JWTConfig) (now : Int) (isAck : Bool) (token : Option Token)
    (peerKey : Option Nat) : Except CodecError ConnectionClaims :=
  match token with
  | none => .error .InvalidToken
  | some t =>
    if t.ack ≠ isAck then .error .InvalidToken
    else if t.method ≠ c.signMethod then .error .InvalidToken
    else if t.content.expiresAt < now then .error .InvalidToken
    else if verifySignature sch c t peerKey = false then .error .InvalidToken
    else .ok (if isAck then { t.content.claims with T := none } else t.content.claims)

/-- Modelled from the spec: what makes secrets valid for a scheme: for PKI the local
certificate chains to the trusted CA bundle and every signature made with the private key
verifies under the public key of the certificate. -/
def validSecrets (sch : Scheme) : Secrets → Prop
  | .psk _ => True
  | .pki privateKey publicKey ca =>
    sch.chains ca publicKey = true ∧
      ∀ m : SignedClaims, sch.verify publicKey m (sch.sign privateKey m) = true

/-- The key argument the test passes to Decode for an ACK token: nil for a shared
secret, the public key of the certificate for PKI. -/
def ackKey : Secrets → Option Nat
  | .psk _ => none
  | .pki _ publicKey _ => some publicKey

/-- A toy scheme used to exhibit valid secrets: a signature is the key plus the
expiration of the content, the public key equals the private key, and the only CA bundle
`0` trusts every key. -/
def toyScheme : Scheme :=
  { mac := fun k m => k + m.expiresAt.toNat
    sign := fun k m => k + m.expiresAt.toNat
    verify := fun k m sig => decide (sig = k + m.expiresAt.toNat)
    chains := fun ca _ => decide (ca = 0) }

/-- The claims of the test file: two tags and the two nonces (as bytes). -/
def defaultClaims : ConnectionClaims :=
  { T := some [("label1", "value1"), ("label2", "value2")]
    LCL := [48, 57, 56, 55]
    RMT := [49, 50, 51, 52]
    EK := [] }

/-! ## Flow reporting (`enforcer/utils.go`)

The packages `collector`, `packet` and the type `PUContext` are not among the sources:
the record, the packet and the context carry the fields reportFlow reads or fills, and the
constants `collector.FlowAccept` and `collector.FlowReject` are arguments. -/

/-- The fields of `collector.FlowRecord` that reportFlow fills. -/
structure FlowRecord where
  ContextID : String
  DestinationID : String
  SourceID : String
  Tags : List (String × String)
  Action : String
  Mode : String
  SourceIP : String
  DestinationIP : String
  DestinationPort : Nat
  deriving DecidableEq

/-- The fields of `packet.Packet` that reportFlow reads; the addresses are the texts
returned by their `String()`. -/
structure Packet where
  SourceAddress : String
  DestinationAddress : String
  DestinationPort : Nat

/-- The fields of `PUContext` that reportFlow reads. -/
structure PUContext where
  ID : String
  Annotations : List (String × String)

/-- The part of `Datapath` that reportFlow uses: the collector, kept as the flow events
handed to `CollectFlowEvent`, oldest first. -/
structure Datapath where
  collector : List FlowRecord

/-- The method reportFlow of Datapath; the connection is `none` for a nil pointer. -/
def reportFlow (TraceLogging : Int) (d : Datapath) (p : Packet)
    (connection : Option TCPConnection) (sourceID destID : String) (context : PUContext)
    (action mode : String) : Datapath × Option TCPConnection :=
  let connection1 :=
    match connection with
    | some c => some (SetReported TraceLogging true c)
    | none => none
  ({ d with collector := d.collector ++
      [{ ContextID := context.ID
         DestinationID := destID
         SourceID := sourceID
         Tags := context.Annotations
         Action := action
         Mode := mode
         SourceIP := p.SourceAddress
         DestinationIP := p.DestinationAddress
         DestinationPort := p.DestinationPort }] }, connection1)

/-- The method reportAcceptedFlow of Datapath. -/
def reportAcceptedFlow (TraceLogging : Int) (FlowAccept : String) (d : Datapath) (p : Packet)
    (connection : Option TCPConnection) (sourceID destID : String) (context : PUContext) :
    Datapath × Option TCPConnection :=
  reportFlow TraceLogging d p connection sourceID destID context FlowAccept "NA"

/-- The method reportRejectedFlow of Datapath. -/
def reportRejectedFlow (TraceLogging : Int) (FlowReject : String) (d : Datapath) (p : Packet)
    (connection : Option TCPConnection) (sourceID destID : String) (context : PUContext)
    (mode : String) : Datapath × Option TCPConnection :=
  reportFlow TraceLogging d p connection sourceID destID context FlowReject mode

/-! ## The supervisor (`supervisor/supervisor.go`)

The rule implementor `s.impl` and the type `policy.PUInfo` are not among the sources.  The
implementor is a parameter: the error each of its methods returns (`none` for nil) may
depend on the calls made so far, and every call is recorded.  A PUInfo carries what the
supervisor reads from it.  A step returns `none` when the Go code would stop on a nil
dereference or a failed type assertion. -/

/-- The Go struct `cacheData`. -/
structure cacheData where
  version : Int
  ips : List String
  mark : String
  port : String
  deriving DecidableEq

/-- A value of type `interface{}` as the supervisor hands it to the version tracker: a
`*cacheData` or an `int`. -/
inductive Item where
  | data (d : cacheData)
  | int (n : Int)
  deriving DecidableEq

/-- What `containerInfo.Runtime.Options()` answers to the supervisor: the value found for
`cgnetcls.CgroupMarkTag`, and the value found for `cgnetcls.PortTag` if there is one. -/
structure PURuntime where
  mark : String
  port : Option String

/-- What the supervisor reads from a `policy.PUInfo`: the pointers Policy (with its
`IPAddresses()`) and Runtime, each possibly nil. -/
structure PUInfo where
  Policy : Option (List String)
  Runtime : Option PURuntime

/-- A call of a method of the rule implementor, with the arguments the claims speak of. -/
inductive ImplCall where
  | configureRules (version : Int) (contextID : String)
  | updateRules (version : Int) (contextID : String)
  | deleteRules (version : Int) (contextID : String) (ips : List String) (port mark : String)
  deriving DecidableEq

/-- The rule implementor `s.impl`: the error returned by each method, given the calls
made before. -/
structure Implementor where
  ConfigureRules : List ImplCall → Int → String → PUInfo → Option String
  UpdateRules : List ImplCall → Int → String → PUInfo → Option String
  DeleteRules : List ImplCall → Int → String → List String → String → String → Option String

/-- Config is the structure holding all information about the supervisor: the version
tracker, the implementor with the calls made to it, and the warnings logged. -/
structure Config where
  versionTracker : Store String Item
  impl : Implementor
  calls : List ImplCall
  warned : List String

/-- The function `add` of the supervisor: `entry.version += b.(int)` on the `*cacheData`
held by `a`, with the overflow of a Go `int`. A failed type assertion cannot be expressed
by a value; the model returns `a` there. -/
def add (a b : Item) : Item :=
  match a, b with
  | .data entry, .int n => .data { entry with version := wrap64 (entry.version + n) }
  | _, _ => a

/-- Unsupervise removes the mapping from cache and cleans up the iptable rules. -/
def Unsupervise (contextID : String) (s : Config) : Option (Option String × Config) :=
  match (Get contextID s.versionTracker).1 with
  | .error _ =>
    some (some "Cannot find policy version",
      { s with versionTracker := (Get contextID s.versionTracker).2 })
  | .ok (.int _) => none
  | .ok (.data cacheEntry) =>
    let s0 : Config := { s with versionTracker := (Get contextID s.versionTracker).2 }
    let derr := s0.impl.DeleteRules s0.calls cacheEntry.version contextID cacheEntry.ips
      cacheEntry.port cacheEntry.mark
    let s1 : Config :=
      { s0 with
        calls := s0.calls ++ [.deleteRules cacheEntry.version contextID cacheEntry.ips
          cacheEntry.port cacheEntry.mark]
        warned := match derr with
          | some _ => s0.warned ++ ["Some rules were not deleted during unsupervise"]
          | none => s0.warned }
    let s2 : Config :=
      { s1 with
        versionTracker := (Remove contextID s1.versionTracker).2
        warned := match (Remove contextID s1.versionTracker).1 with
          | .error _ => s1.warned ++ ["Failed to clean the rule version cache"]
          | .ok _ => s1.warned }
    some (none, s2)

/-- The clean-up both doCreatePU and doUpdatePU run when the implementor fails:
`if uerr := s.Unsupervise(contextID); uerr != nil { zap.L().Warn(msg) }; return err`. -/
def cleanupAfterFailure (contextID : String) (msg : String) (err : String) (s : Config) :
    Option (Option String × Config) :=
  match Unsupervise contextID s with
  | none => none
  | some (some _, s1) => some (some err, { s1 with warned := s1.warned ++ [msg] })
  | some (none, s1) => some (some err, s1)

/-- The method doCreatePU of Config. -/
def doCreatePU (contextID : String) (containerInfo : PUInfo) (s : Config) :
    Option (Option String × Config) :=
  match containerInfo.Policy, containerInfo.Runtime with
  | some ips, some runtime =>
    let version : Int := 0
    let mark := runtime.mark
    let port := match runtime.port with
      | some p => p
      | none => "0"
    let cacheEntry : cacheData := { version := version, ips := ips, mark := mark, port := port }
    let s1 : Config :=
      { s with versionTracker := AddOrUpdate contextID (.data cacheEntry) s.versionTracker }
    let err := s1.impl.ConfigureRules s1.calls version contextID containerInfo
    let s2 : Config := { s1 with calls := s1.calls ++ [.configureRules version contextID] }
    match err with
    | some e =>
      cleanupAfterFailure contextID "Failed to clean up state while creating the PU" e s2
    | none => some (none, s2)
  | _, _ => none

/-- The method doUpdatePU of Config. -/
def doUpdatePU (contextID : String) (containerInfo : PUInfo) (s : Config) :
    Option (Option String × Config) :=
  let s1 : Config :=
    { s with versionTracker := (LockedModify contextID add (.int 1) s.versionTracker).2 }
  match (LockedModify contextID add (.int 1) s.versionTracker).1 with
  | .error e => some (some ("Error finding PU in cache " ++ e), s1)
  | .ok (.int _) => none
  | .ok (.data cachedEntry) =>
    let err := s1.impl.UpdateRules s1.calls cachedEntry.version contextID containerInfo
    let s2 : Config :=
      { s1 with calls := s1.calls ++ [.updateRules cachedEntry.version contextID] }
    match err with
    | some e =>
      cleanupAfterFailure contextID "Failed to clean up state while updating the PU" e s2
    | none => some (none, s2)

/-- Supervise creates a mapping between an IP address and the corresponding labels. -/
def Supervise (contextID : String) (containerInfo : Option PUInfo) (s : Config) :
    Option (Option String × Config) :=
  match containerInfo with
  | none => some (some "Runtime, Policy and ContainerInfo should not be nil", s)
  | some info =>
    if info.Policy.isNone || info.Runtime.isNone then
      some (some "Runtime, Policy and ContainerInfo should not be nil", s)
    else
      let s0 : Config := { s with versionTracker := (Get contextID s.versionTracker).2 }
      match (Get contextID s.versionTracker).1 with
      | .error _ => doCreatePU contextID info s0
      | .ok _ => doUpdatePU contextID info s0

/-- The supervisor right after NewSupervisor: a version tracker built by NewCache, no
call made to the implementor yet. -/
def newConfig (impl : Implementor) : Config :=
  { versionTracker := Store.start NewCache, impl := impl, calls := [], warned := [] }

/-- The calls `Supervise contextID info` for the infos of a list, one after the other:
the errors they returned and the final state. -/
def superviseAll (contextID : String) :
    List PUInfo → Config → Option (List (Option String) × Config)
  | [], s => some ([], s)
  | info :: rest, s =>
    match Supervise contextID (some info) s with
    | none => none
    | some (err, s1) =>
      match superviseAll contextID rest s1 with
      | none => none
      | some (errs, s2) => some (err :: errs, s2)

/-- The version the tracker holds for a contextID, if it is tracked. -/
def trackedVersion (contextID : String) (s : Config) : Option Int :=
  match s.versionTracker.c.data.lookup contextID with
  | some e =>
    match e.value with
    | .data d => some d.version
    | .int _ => none
  | none => none

/-- The container info is complete: Policy and Runtime are not nil. -/
def PUInfo.complete (info : PUInfo) : Prop :=
  info.Policy.isSome = true ∧ info.Runtime.isSome = true

/-- The implementor never fails in ConfigureRules and UpdateRules. -/
def Implementor.succeeds (impl : Implementor) : Prop :=
  ∀ (calls : List ImplCall) (version : Int) (contextID : String) (info : PUInfo),
    impl.ConfigureRules calls version contextID info = none ∧
    impl.UpdateRules calls version contextID info = none

/-- An implementor whose every method returns nil. -/
def okImplementor : Implementor :=
  { ConfigureRules := fun _ _ _ _ => none
    UpdateRules := fun _ _ _ _ => none
    DeleteRules := fun _ _ _ _ _ _ => none }

/-- An implementor whose UpdateRules fails when asked for version 2. -/
def failingImplementor : Implementor :=
  { ConfigureRules := fun _ _ _ _ => none
    UpdateRules := fun _ version _ _ => if version = 2 then some "update failed" else none
    DeleteRules := fun _ _ _ _ _ _ => none }

/-- A complete container info. -/
def sampleInfo : PUInfo :=
  { Policy := some ["10.0.0.1"], Runtime := some { mark := "100", port := none } }

/-! ## Basic facts about the steps -/

section lemmas

theorem armTimer_c (u : K) (s : Store K V) : (armTimer u s).2.c = s.c := by
  unfold armTimer AfterFunc
  split <;> rfl

theorem armTimer_now (u : K) (s : Store K V) : (armTimer u s).2.now = s.now := by
  unfold armTimer AfterFunc
  split <;> rfl

theorem armTimer_notified (u : K) (s : Store K V) :
    (armTimer u s).2.notified = s.notified := by
  unfold armTimer AfterFunc
  split <;> rfl

theorem stopTimer_c (timer : Option Nat) (s : Store K V) : (stopTimer timer s).c = s.c := by
  cases timer <;> rfl

theorem stopTimer_notified (timer : Option Nat) (s : Store K V) :
    (stopTimer timer s).notified = s.notified := by
  cases timer <;> rfl

theorem stopTimer_now (timer : Option Nat) (s : Store K V) :
    (stopTimer timer s).now = s.now := by
  cases timer <;> rfl

theorem setData_data (s : Store K V) (d : AList (fun _ : K => entry V)) :
    (s.setData d).c.data = d := rfl

theorem setData_timers (s : Store K V) (d : AList (fun _ : K => entry V)) :
    (s.setData d).timers = s.timers := rfl

theorem setData_notified (s : Store K V) (d : AList (fun _ : K => entry V)) :
    (s.setData d).notified = s.notified := rfl

/-- After `Stop` a timer is not pending. -/
theorem Timer.Stop_status (t : Timer K) : (Timer.Stop t).status ≠ .pending := by
  unfold Timer.Stop
  cases h : t.status <;> simp [h]

theorem Timer.Stop_key (t : Timer K) : (Timer.Stop t).key = t.key := by
  unfold Timer.Stop
  cases h : t.status <;> rfl

end lemmas

section lemmasDec
variable [DecidableEq K]

/-- Add on an absent key. -/
theorem Add_absent (u : K) (value : V) (s : Store K V) (h : s.c.data.lookup u = none) :
    Add u value s = (.ok (), (armTimer u s).2.setData ((armTimer u s).2.c.data.insert u
      { value := value, timestamp := (armTimer u s).2.now, timer := (armTimer u s).1,
        expirer := (armTimer u s).2.c.expirer })) := by
  have h1 : (armTimer u s).2.c.data.lookup u = none := by rw [armTimer_c]; exact h
  simp only [Add, h1]

/-- Add on a present key. -/
theorem Add_present (u : K) (value : V) (s : Store K V) (e : entry V)
    (h : s.c.data.lookup u = some e) :
    Add u value s = (.error "Item Exists - Use update", (armTimer u s).2) := by
  have h1 : (armTimer u s).2.c.data.lookup u = some e := by rw [armTimer_c]; exact h
  simp only [Add, h1]

/-- Update on an absent key. -/
theorem Update_absent (u : K) (value : V) (s : Store K V) (h : s.c.data.lookup u = none) :
    Update u value s = (.error "Cannot update item - it doesn't exist", (armTimer u s).2) := by
  have h1 : (armTimer u s).2.c.data.lookup u = none := by rw [armTimer_c]; exact h
  simp only [Update, h1]

/-- Update on a present key. -/
theorem Update_present (u : K) (value : V) (s : Store K V) (e : entry V)
    (h : s.c.data.lookup u = some e) :
    Update u value s = (.ok (), (stopTimer e.timer (armTimer u s).2).setData
      ((stopTimer e.timer (armTimer u s).2).c.data.insert u
        { value := value, timestamp := (armTimer u s).2.now, timer := (armTimer u s).1,
          expirer := (stopTimer e.timer (armTimer u s).2).c.expirer })) := by
  have h1 : (armTimer u s).2.c.data.lookup u = some e := by rw [armTimer_c]; exact h
  simp only [Update, h1]

/-- AddOrUpdate on an absent key. -/
theorem AddOrUpdate_absent (u : K) (value : V) (s : Store K V)
    (h : s.c.data.lookup u = none) :
    AddOrUpdate u value s = (armTimer u s).2.setData ((armTimer u s).2.c.data.insert u
      { value := value, timestamp := (armTimer u s).2.now, timer := (armTimer u s).1,
        expirer := (armTimer u s).2.c.expirer }) := by
  have h1 : (armTimer u s).2.c.data.lookup u = none := by rw [armTimer_c]; exact h
  simp only [AddOrUpdate, h1]

/-- AddOrUpdate on a present key. -/
theorem AddOrUpdate_present (u : K) (value : V) (s : Store K V) (e : entry V)
    (h : s.c.data.lookup u = some e) :
    AddOrUpdate u value s = (stopTimer e.timer (armTimer u s).2).setData
      ((stopTimer e.timer (armTimer u s).2).c.data.insert u
        { value := value, timestamp := (armTimer u s).2.now, timer := (armTimer u s).1,
          expirer := (stopTimer e.timer (armTimer u s).2).c.expirer }) := by
  have h1 : (armTimer u s).2.c.data.lookup u = some e := by rw [armTimer_c]; exact h
  simp only [AddOrUpdate, h1]

/-- LockedModify on an absent key. -/
theorem LockedModify_absent (u : K) (add : V → V → V) (increment : V) (s : Store K V)
    (h : s.c.data.lookup u = none) :
    LockedModify u add increment s = (.error "Item not found", (armTimer u s).2) := by
  have h1 : (armTimer u s).2.c.data.lookup u = none := by rw [armTimer_c]; exact h
  simp only [LockedModify, h1]

/-- LockedModify on a present key. -/
theorem LockedModify_present (u : K) (add : V → V → V) (increment : V) (s : Store K V)
    (e : entry V) (h : s.c.data.lookup u = some e) :
    LockedModify u add increment s = (.ok (add e.value increment),
      (stopTimer e.timer (armTimer u s).2).setData
        ((stopTimer e.timer (armTimer u s).2).c.data.insert u
          { value := add e.value increment, timestamp := (armTimer u s).2.now,
            timer := (armTimer u s).1,
            expirer := (stopTimer e.timer (armTimer u s).2).c.expirer })) := by
  have h1 : (armTimer u s).2.c.data.lookup u = some e := by rw [armTimer_c]; exact h
  simp only [LockedModify, h1]

/-- The function removeNotify on an absent key. -/
theorem removeNotify_absent (u : K) (notify : Bool) (s : Store K V)
    (h : s.c.data.lookup u = none) :
    removeNotify u notify s = (.error "Item does not exist", s) := by
  simp only [removeNotify, h]

/-- The function removeNotify on a present key. -/
theorem removeNotify_present (u : K) (notify : Bool) (s : Store K V) (e : entry V)
    (h : s.c.data.lookup u = some e) :
    removeNotify u notify s = (.ok (),
      (callExpirer notify u e (stopTimer e.timer s)).setData
        ((callExpirer notify u e (stopTimer e.timer s)).c.data.erase u)) := by
  simp only [removeNotify, h]

theorem callExpirer_c (notify : Bool) (u : K) (val : entry V) (s : Store K V) :
    (callExpirer notify u val s).c = s.c := by
  unfold callExpirer
  split <;> rfl

theorem callExpirer_timers (notify : Bool) (u : K) (val : entry V) (s : Store K V) :
    (callExpirer notify u val s).timers = s.timers := by
  unfold callExpirer
  split <;> rfl

theorem callExpirer_false (u : K) (val : entry V) (s : Store K V) :
    callExpirer false u val s = s := rfl

/-- Get on an absent key. -/
theorem Get_absent (u : K) (s : Store K V) (h : s.c.data.lookup u = none) :
    Get u s = (.error "Item does not exist", s) := by
  simp only [Get, h]

/-- Get on a present key. -/
theorem Get_present (u : K) (s : Store K V) (e : entry V) (h : s.c.data.lookup u = some e) :
    Get u s = (.ok e.value, s) := by
  simp only [Get, h]

/-- A timer that was just stopped is not pending. -/
theorem isPending_stopTimer (id : Nat) (s : Store K V) :
    isPending id (stopTimer (some id) s) = false := by
  unfold isPending stopTimer
  simp only [List.getElem?_modify_eq]
  cases h : s.timers[id]? with
  | none => simp
  | some t => simpa using Timer.Stop_status t

theorem isPending_setData (id : Nat) (s : Store K V) (d : AList (fun _ : K => entry V)) :
    isPending id (s.setData d) = isPending id s := rfl

theorem isPending_callExpirer (id : Nat) (notify : Bool) (u : K) (val : entry V)
    (s : Store K V) : isPending id (callExpirer notify u val s) = isPending id s := by
  unfold isPending
  rw [callExpirer_timers]

/-- Number of entries after an insertion. -/
theorem length_insert (d : AList (fun _ : K => entry V)) (u : K) (e : entry V) :
    (d.insert u e).entries.length =
      if (d.lookup u).isSome then d.entries.length else d.entries.length + 1 := by
  have hk : ∀ x : AList (fun _ : K => entry V), x.entries.length = x.keys.length := by
    intro x; simp [AList.keys, List.keys]
  rw [hk, hk, AList.keys_insert]
  by_cases h : u ∈ d
  · have h1 : (d.lookup u).isSome = true := AList.lookup_isSome.mpr h
    have h2 : u ∈ d.keys := AList.mem_keys.mp h
    have h3 : 0 < d.keys.length := List.length_pos_of_mem h2
    simp only [h1, if_true, List.length_cons, List.length_erase_of_mem h2]
    omega
  · have h1 : (d.lookup u).isSome = false := by
      rw [AList.lookup_eq_none.mpr h]; rfl
    have h2 : u ∉ d.keys := fun hh => h (AList.mem_keys.mpr hh)
    simp [h1, List.erase_of_not_mem h2]

/-- Value read after a successful LockedModify. -/
theorem Get_LockedModify (u : K) (add : V → V → V) (increment : V) (s : Store K V)
    (e : entry V) (h : s.c.data.lookup u = some e) :
    (Get u (LockedModify u add increment s).2).1 = .ok (add e.value increment) := by
  rw [LockedModify_present u add increment s e h]
  rw [Get_present u _ _ (by rw [setData_data]; exact AList.lookup_insert _)]

/-- Value read after a sequence of LockedModify calls on a present key. -/
theorem Get_lockedModifyAll (u : K) (add : V → V → V) (ds : List V) :
    ∀ (s : Store K V) (e : entry V), s.c.data.lookup u = some e →
      (Get u (lockedModifyAll u add ds s)).1 = .ok (ds.foldl add e.value) := by
  induction ds with
  | nil =>
    intro s e h
    simp only [lockedModifyAll, List.foldl_nil]
    rw [Get_present u s e h]
  | cons d ds ih =>
    intro s e h
    have hstep : (LockedModify u add d s).2.c.data.lookup u =
        some { value := add e.value d, timestamp := (armTimer u s).2.now,
               timer := (armTimer u s).1,
               expirer := (stopTimer e.timer (armTimer u s).2).c.expirer } := by
      rw [LockedModify_present u add d s e h, setData_data]
      exact AList.lookup_insert _
    have := ih (LockedModify u add d s).2 _ hstep
    simpa only [lockedModifyAll, List.foldl_cons] using this

theorem foldl_add_eq_sum (l : List Int) : ∀ c : Int, l.foldl (fun a b => a + b) c = c + l.sum := by
  induction l with
  | nil => intro c; simp
  | cons x xs ih => intro c; simp only [List.foldl_cons, List.sum_cons, ih]; ring

theorem wrap64_add (x y : Int) : wrap64 (wrap64 x + y) = wrap64 (x + y) := by
  unfold wrap64
  omega

theorem foldl_sum64 (l : List Int) : ∀ c : Int, wrap64 c = c →
    l.foldl sum64 c = wrap64 (c + l.sum) := by
  induction l with
  | nil => intro c hc; simp [hc]
  | cons x xs ih =>
    intro c hc
    have h1 : wrap64 (sum64 c x) = sum64 c x := by
      unfold sum64 wrap64; omega
    rw [List.foldl_cons, ih _ h1, List.sum_cons]
    unfold sum64
    rw [wrap64_add, add_assoc]

end lemmasDec

/-! ## Frame of a step on one key -/

section frame
variable [DecidableEq K]

theorem Touches.refl (u : K) (s : Store K V) : Touches u s s where
  timers_other := fun _ _ h _ => h
  timers_key := fun _ t h => ⟨t, h, rfl⟩
  data_other := fun _ _ => rfl
  data_self := fun _ h => Or.inl h
  notified_other := fun _ _ => rfl
  lifetime := rfl
  expirer := rfl
  now := rfl

theorem Touches.trans {u : K} {s s1 s2 : Store K V} (h1 : Touches u s s1)
    (h2 : Touches u s1 s2) : Touches u s s2 where
  timers_other := fun n t h hk => h2.timers_other n t (h1.timers_other n t h hk) hk
  timers_key := by
    intro n t h
    obtain ⟨t1, ht1, hk1⟩ := h1.timers_key n t h
    obtain ⟨t2, ht2, hk2⟩ := h2.timers_key n t1 ht1
    exact ⟨t2, ht2, hk2.trans hk1⟩
  data_other := fun k hk => (h2.data_other k hk).trans (h1.data_other k hk)
  data_self := by
    intro e he
    rcases h2.data_self e he with h | h
    · rcases h1.data_self e h with h0 | h0
      · exact Or.inl h0
      · refine Or.inr (fun id hid => ?_)
        obtain ⟨t, ht, hk⟩ := h0 id hid
        obtain ⟨t2, ht2, hk2⟩ := h2.timers_key id t ht
        exact ⟨t2, ht2, hk2.trans hk⟩
    · exact Or.inr h
  notified_other := fun k hk => (h2.notified_other k hk).trans (h1.notified_other k hk)
  lifetime := h2.lifetime.trans h1.lifetime
  expirer := h2.expirer.trans h1.expirer
  now := h2.now.trans h1.now

/-- Sound handles survive a step on one key. -/
theorem WF_of_Touches {u : K} {s s1 : Store K V} (hw : WF s) (h : Touches u s s1) : WF s1 := by
  intro k e id he hid
  by_cases hk : k = u
  · subst hk
    rcases h.data_self e he with h0 | h0
    · obtain ⟨t, ht, htk⟩ := hw k e id h0 hid
      obtain ⟨t1, ht1, hk1⟩ := h.timers_key id t ht
      exact ⟨t1, ht1, hk1.trans htk⟩
    · exact h0 id hid
  · rw [h.data_other k hk] at he
    obtain ⟨t, ht, htk⟩ := hw k e id he hid
    obtain ⟨t1, ht1, hk1⟩ := h.timers_key id t ht
    exact ⟨t1, ht1, hk1.trans htk⟩

/-- The handle returned by the prologue names the new pending timer. -/
theorem armTimer_handle (u : K) (s : Store K V) (id : Nat) (h : (armTimer u s).1 = some id) :
    id = s.timers.length ∧
    (armTimer u s).2.timers[id]? =
      some { key := u, deadline := s.now + s.c.lifetime, status := .pending } := by
  unfold armTimer AfterFunc at h ⊢
  split at h
  · rename_i hl
    simp only [Option.some.injEq] at h
    subst h
    refine ⟨rfl, ?_⟩
    rw [if_pos hl]
    exact List.getElem?_concat_length _ _
  · cases h

/-- Without a configured lifetime the prologue arms nothing. -/
theorem armTimer_none (u : K) (s : Store K V) (h : s.c.lifetime = -1) :
    armTimer u s = (none, s) := by
  unfold armTimer
  simp [h]

/-- Existing timers are kept by the prologue. -/
theorem armTimer_timers (u : K) (s : Store K V) (n : Nat) (t : Timer K)
    (h : s.timers[n]? = some t) : (armTimer u s).2.timers[n]? = some t := by
  have hn : n < s.timers.length := (List.getElem?_eq_some.mp h).1
  unfold armTimer AfterFunc
  split
  · show (s.timers ++ _)[n]? = some t
    rw [List.getElem?_append_left hn]; exact h
  · exact h

theorem Touches_armTimer (u : K) (s : Store K V) : Touches u s (armTimer u s).2 where
  timers_other := fun n t h _ => armTimer_timers u s n t h
  timers_key := fun n t h => ⟨t, armTimer_timers u s n t h, rfl⟩
  data_other := fun _ _ => by rw [armTimer_c]
  data_self := fun e h => Or.inl (by rw [armTimer_c] at h; exact h)
  notified_other := fun _ _ => by unfold notifiedFor; rw [armTimer_notified]
  lifetime := by rw [armTimer_c]
  expirer := by rw [armTimer_c]
  now := armTimer_now u s

/-- Changing the status of timers armed for `u` is a step on `u`. -/
theorem Touches_modify (u : K) (s : Store K V) (f : Timer K → Timer K) (id : Nat)
    (hf : ∀ t, (f t).key = t.key)
    (hid : ∀ t, s.timers[id]? = some t → t.key = u) :
    Touches u s { s with timers := s.timers.modify f id } where
  timers_other := by
    intro n t h hk
    show (s.timers.modify f id)[n]? = some t
    by_cases hn : id = n
    · subst hn
      exact absurd (hid t h) hk
    · rw [List.getElem?_modify_ne _ _ hn]; exact h
  timers_key := by
    intro n t h
    show ∃ t1, (s.timers.modify f id)[n]? = some t1 ∧ t1.key = t.key
    rw [List.getElem?_modify, h]
    by_cases hn : id = n
    · exact ⟨f t, by simp [hn], hf t⟩
    · exact ⟨t, by simp [hn], rfl⟩
  data_other := fun _ _ => rfl
  data_self := fun _ h => Or.inl h
  notified_other := fun _ _ => rfl
  lifetime := rfl
  expirer := rfl
  now := rfl

theorem Touches_stopTimer (u : K) (s : Store K V) (timer : Option Nat)
    (hid : ∀ id, timer = some id → ∀ t, s.timers[id]? = some t → t.key = u) :
    Touches u s (stopTimer timer s) := by
  cases timer with
  | none => exact Touches.refl u s
  | some id => exact Touches_modify u s Timer.Stop id Timer.Stop_key (hid id rfl)

theorem Touches_markFired (u : K) (s : Store K V) (id : Nat)
    (hid : ∀ t, s.timers[id]? = some t → t.key = u) : Touches u s (markFired id s) :=
  Touches_modify u s _ id (fun _ => rfl) hid

theorem Touches_insert (u : K) (s : Store K V) (e : entry V)
    (he : ∀ id, e.timer = some id → ∃ t, s.timers[id]? = some t ∧ t.key = u) :
    Touches u s (s.setData (s.c.data.insert u e)) where
  timers_other := fun _ _ h _ => h
  timers_key := fun _ t h => ⟨t, h, rfl⟩
  data_other := fun k hk => by rw [setData_data]; exact AList.lookup_insert_ne hk
  data_self := by
    intro e1 h
    rw [setData_data, AList.lookup_insert] at h
    cases h
    exact Or.inr he
  notified_other := fun _ _ => rfl
  lifetime := rfl
  expirer := rfl
  now := rfl

theorem Touches_erase (u : K) (s : Store K V) :
    Touches u s (s.setData (s.c.data.erase u)) where
  timers_other := fun _ _ h _ => h
  timers_key := fun _ t h => ⟨t, h, rfl⟩
  data_other := fun k hk => by rw [setData_data]; exact AList.lookup_erase_ne hk
  data_self := by
    intro e1 h
    rw [setData_data, AList.lookup_erase] at h
    cases h
  notified_other := fun _ _ => rfl
  lifetime := rfl
  expirer := rfl
  now := rfl

theorem Touches_callExpirer (notify : Bool) (u : K) (val : entry V) (s : Store K V) :
    Touches u s (callExpirer notify u val s) where
  timers_other := fun _ _ h _ => by rw [callExpirer_timers]; exact h
  timers_key := fun _ t h => ⟨t, by rw [callExpirer_timers]; exact h, rfl⟩
  data_other := fun _ _ => by rw [callExpirer_c]
  data_self := fun _ h => Or.inl (by rw [callExpirer_c] at h; exact h)
  notified_other := by
    intro k hk
    unfold callExpirer notifiedFor
    split
    · have hne : ¬ u = k := fun h => hk h.symm
      simp [List.filter_append, hne]
    · rfl
  lifetime := by rw [callExpirer_c]
  expirer := by rw [callExpirer_c]
  now := by unfold callExpirer; split <;> rfl

theorem Touches_warn (u : K) (s : Store K V) : Touches u s (warn u s) where
  timers_other := fun _ _ h _ => h
  timers_key := fun _ t h => ⟨t, h, rfl⟩
  data_other := fun _ _ => rfl
  data_self := fun _ h => Or.inl h
  notified_other := fun _ _ => rfl
  lifetime := rfl
  expirer := rfl
  now := rfl

theorem Touches_Add (u : K) (value : V) (s : Store K V) : Touches u s (Add u value s).2 := by
  cases hl : s.c.data.lookup u with
  | none =>
    rw [Add_absent u value s hl]
    refine (Touches_armTimer u s).trans (Touches_insert u _ _ ?_)
    intro id hid
    exact ⟨_, (armTimer_handle u s id hid).2, rfl⟩
  | some e =>
    rw [Add_present u value s e hl]
    exact Touches_armTimer u s

/-- The write shared by Update, AddOrUpdate and LockedModify on a present key: arm, stop
the old timer, store the new entry. -/
theorem Touches_rewrite (u : K) (s : Store K V) (e new : entry V) (hw : WF s)
    (hl : s.c.data.lookup u = some e) (hnew : new.timer = (armTimer u s).1) :
    Touches u s ((stopTimer e.timer (armTimer u s).2).setData
      ((stopTimer e.timer (armTimer u s).2).c.data.insert u new)) := by
  have hstop : Touches u (armTimer u s).2 (stopTimer e.timer (armTimer u s).2) := by
    refine Touches_stopTimer u _ e.timer ?_
    intro id hid t ht
    obtain ⟨t0, ht0, hk0⟩ := hw u e id hl hid
    rw [armTimer_timers u s id t0 ht0] at ht
    cases ht
    exact hk0
  refine (Touches_armTimer u s).trans (hstop.trans (Touches_insert u _ _ ?_))
  intro id hid
  rw [hnew] at hid
  obtain ⟨t1, ht1, hk1⟩ := hstop.timers_key id _ (armTimer_handle u s id hid).2
  exact ⟨t1, ht1, hk1⟩

theorem Touches_Update (u : K) (value : V) (s : Store K V) (hw : WF s) :
    Touches u s (Update u value s).2 := by
  cases hl : s.c.data.lookup u with
  | none =>
    rw [Update_absent u value s hl]
    exact Touches_armTimer u s
  | some e =>
    rw [Update_present u value s e hl]
    exact Touches_rewrite u s e _ hw hl rfl

theorem Touches_AddOrUpdate (u : K) (value : V) (s : Store K V) (hw : WF s) :
    Touches u s (AddOrUpdate u value s) := by
  cases hl : s.c.data.lookup u with
  | none =>
    rw [AddOrUpdate_absent u value s hl]
    refine (Touches_armTimer u s).trans (Touches_insert u _ _ ?_)
    intro id hid
    exact ⟨_, (armTimer_handle u s id hid).2, rfl⟩
  | some e =>
    rw [AddOrUpdate_present u value s e hl]
    exact Touches_rewrite u s e _ hw hl rfl

theorem Touches_LockedModify (u : K) (add : V → V → V) (increment : V) (s : Store K V)
    (hw : WF s) : Touches u s (LockedModify u add increment s).2 := by
  cases hl : s.c.data.lookup u with
  | none =>
    rw [LockedModify_absent u add increment s hl]
    exact Touches_armTimer u s
  | some e =>
    rw [LockedModify_present u add increment s e hl]
    exact Touches_rewrite u s e _ hw hl rfl

theorem Touches_removeNotify (u : K) (notify : Bool) (s : Store K V) (hw : WF s) :
    Touches u s (removeNotify u notify s).2 := by
  cases hl : s.c.data.lookup u with
  | none =>
    rw [removeNotify_absent u notify s hl]
    exact Touches.refl u s
  | some e =>
    rw [removeNotify_present u notify s e hl]
    have hstop : Touches u s (stopTimer e.timer s) := by
      refine Touches_stopTimer u s e.timer ?_
      intro id hid t ht
      obtain ⟨t0, ht0, hk0⟩ := hw u e id hl hid
      rw [ht0] at ht
      cases ht
      exact hk0
    exact hstop.trans ((Touches_callExpirer notify u e _).trans (Touches_erase u _))

theorem Touches_timerFunc (u : K) (s : Store K V) (hw : WF s) :
    Touches u s (timerFunc u s) := by
  unfold timerFunc
  split
  · exact (Touches_removeNotify u true s hw).trans (Touches_warn u _)
  · exact Touches_removeNotify u true s hw

/-- What a firing that the runtime performs consists of. -/
theorem fire_some (id : Nat) (s s1 : Store K V) (h : fire id s = some s1) :
    ∃ t, s.timers[id]? = some t ∧ t.status = .pending ∧ t.deadline ≤ s.now ∧
      s1 = timerFunc t.key (markFired id s) := by
  unfold fire at h
  cases ht : s.timers[id]? with
  | none => rw [ht] at h; cases h
  | some t =>
    rw [ht] at h
    simp only at h
    split at h
    · rename_i hc
      cases h
      exact ⟨t, rfl, hc.1, hc.2, rfl⟩
    · cases h

/-- A due pending timer fires. -/
theorem fire_enabled (id : Nat) (s : Store K V) (t : Timer K) (ht : s.timers[id]? = some t)
    (hp : t.status = .pending) (hd : t.deadline ≤ s.now) :
    fire id s = some (timerFunc t.key (markFired id s)) := by
  unfold fire
  rw [ht]
  simp only
  rw [if_pos ⟨hp, hd⟩]

theorem Touches_fire (id : Nat) (s s1 : Store K V) (t : Timer K) (hw : WF s)
    (ht : s.timers[id]? = some t) (h : fire id s = some s1) : Touches t.key s s1 := by
  obtain ⟨t0, ht0, _, _, hs1⟩ := fire_some id s s1 h
  rw [ht] at ht0
  cases ht0
  have hm : Touches t.key s (markFired id s) := by
    refine Touches_markFired t.key s id ?_
    intro t1 ht1
    rw [ht] at ht1
    cases ht1
    rfl
  rw [hs1]
  exact hm.trans (Touches_timerFunc t.key _ (WF_of_Touches hw hm))

/-- Every step either is a step on its key, or leaves cache, timers and notifier calls
as they were and lets time pass. -/
theorem step_Touches (s s1 : Store K V) (op : Op K V) (hw : WF s)
    (h : step s op = some s1) :
    (∃ u, opKey s op = some u ∧ Touches u s s1) ∨
    (s1.c = s.c ∧ s1.timers = s.timers ∧ s1.notified = s.notified ∧ s.now ≤ s1.now) := by
  cases op with
  | add u value => cases h; exact Or.inl ⟨u, rfl, Touches_Add u value s⟩
  | update u value => cases h; exact Or.inl ⟨u, rfl, Touches_Update u value s hw⟩
  | addOrUpdate u value => cases h; exact Or.inl ⟨u, rfl, Touches_AddOrUpdate u value s hw⟩
  | get u =>
    cases h
    refine Or.inl ⟨u, rfl, ?_⟩
    have : (Get u s).2 = s := by unfold Get; split <;> rfl
    rw [this]
    exact Touches.refl u s
  | remove u => cases h; exact Or.inl ⟨u, rfl, Touches_removeNotify u false s hw⟩
  | sizeOf => cases h; exact Or.inr ⟨rfl, rfl, rfl, le_refl _⟩
  | lockedModify u add increment =>
    cases h; exact Or.inl ⟨u, rfl, Touches_LockedModify u add increment s hw⟩
  | fire id =>
    obtain ⟨t, ht, _, _, _⟩ := fire_some id s s1 h
    exact Or.inl ⟨t.key, by simp [opKey, ht], Touches_fire id s s1 t hw ht h⟩
  | sleep d =>
    cases h
    refine Or.inr ⟨rfl, rfl, rfl, ?_⟩
    show s.now ≤ s.now + (d : Int)
    omega

/-- Sound handles are kept by every step. -/
theorem step_WF (s s1 : Store K V) (op : Op K V) (hw : WF s) (h : step s op = some s1) :
    WF s1 := by
  rcases step_Touches s s1 op hw h with ⟨u, _, ht⟩ | ⟨hc, htm, _, _⟩
  · exact WF_of_Touches hw ht
  · intro k e id he hid
    rw [hc] at he
    rw [htm]
    exact hw k e id he hid

/-- The configuration of the cache never changes. -/
theorem step_config (s s1 : Store K V) (op : Op K V) (hw : WF s) (h : step s op = some s1) :
    s1.c.lifetime = s.c.lifetime ∧ s1.c.expirer = s.c.expirer := by
  rcases step_Touches s s1 op hw h with ⟨u, _, ht⟩ | ⟨hc, _, _, _⟩
  · exact ⟨ht.lifetime, ht.expirer⟩
  · rw [hc]; exact ⟨rfl, rfl⟩

/-- A step that does not operate on `k` keeps the entry of `k`, the timers armed for `k`
and the notifier calls recorded for `k`. -/
theorem step_frame (k : K) (s s1 : Store K V) (op : Op K V) (hw : WF s)
    (hk : opKey s op ≠ some k) (h : step s op = some s1) :
    s1.c.data.lookup k = s.c.data.lookup k ∧
    (∀ (n : Nat) (t : Timer K), s.timers[n]? = some t → t.key = k → s1.timers[n]? = some t) ∧
    notifiedFor k s1 = notifiedFor k s := by
  rcases step_Touches s s1 op hw h with ⟨u, hu, ht⟩ | ⟨hc, htm, hn, _⟩
  · have hne : k ≠ u := by
      intro hku
      apply hk
      rw [hu, hku]
    refine ⟨ht.data_other k hne, ?_, ht.notified_other k hne⟩
    intro n t htn htk
    exact ht.timers_other n t htn (by rw [htk]; exact hne)
  · refine ⟨by rw [hc], ?_, by unfold notifiedFor; rw [hn]⟩
    intro n t htn _
    rw [htm]; exact htn

/-- Sound handles and the configuration along a history. -/
theorem run_WF (hist : List (Op K V)) : ∀ (s s1 : Store K V), WF s → run s hist = some s1 →
    WF s1 ∧ s1.c.lifetime = s.c.lifetime ∧ s1.c.expirer = s.c.expirer := by
  induction hist with
  | nil =>
    intro s s1 hw h
    cases h
    exact ⟨hw, rfl, rfl⟩
  | cons op ops ih =>
    intro s s1 hw h
    unfold run at h
    cases hs : step s op with
    | none => rw [hs] at h; cases h
    | some s0 =>
      rw [hs] at h
      obtain ⟨h1, h2, h3⟩ := ih s0 s1 (step_WF s s0 op hw hs) h
      obtain ⟨h4, h5⟩ := step_config s s0 op hw hs
      exact ⟨h1, h2.trans h4, h3.trans h5⟩

/-- A history that does not operate on `k` keeps the entry of `k`, the timers armed for
`k` and the notifier calls recorded for `k`. -/
theorem run_frame (k : K) (hist : List (Op K V)) : ∀ (s s1 : Store K V), WF s →
    avoids k s hist → run s hist = some s1 →
    s1.c.data.lookup k = s.c.data.lookup k ∧
    (∀ (n : Nat) (t : Timer K), s.timers[n]? = some t → t.key = k → s1.timers[n]? = some t) ∧
    notifiedFor k s1 = notifiedFor k s := by
  induction hist with
  | nil =>
    intro s s1 _ _ h
    cases h
    exact ⟨rfl, fun _ _ h _ => h, rfl⟩
  | cons op ops ih =>
    intro s s1 hw ha h
    unfold run at h
    cases hs : step s op with
    | none => rw [hs] at h; cases h
    | some s0 =>
      rw [hs] at h
      obtain ⟨a1, a2, a3⟩ := step_frame k s s0 op hw ha.1 hs
      obtain ⟨b1, b2, b3⟩ := ih s0 s1 (step_WF s s0 op hw hs) (ha.2 s0 hs) h
      exact ⟨b1.trans a1, fun n t hn hk => b2 n t (a2 n t hn hk) hk, b3.trans a3⟩

/-- A freshly constructed store has sound handles. -/
theorem WF_start (c : Cache K V) (h : c.data = ∅) : WF (Store.start c) := by
  intro u e id he
  unfold Store.start at he
  simp only [h, AList.lookup_empty] at he
  cases he

end frame

/-! ## Interleavings: the prologue and the locked part of Add, expiry and closure -/

section interleaving
variable [DecidableEq K]

/-- Add is its prologue followed at once by its locked part. -/
theorem Add_eq_AddLocked (u : K) (value : V) (s : Store K V) :
    Add u value s = AddLocked (armTimer u s).1 (armTimer u s).2.now u value (armTimer u s).2 :=
  rfl

/-- The closure of an expired timer can run. -/
theorem runClosure_enabled (id : Nat) (s : Store K V) (t : Timer K)
    (ht : s.timers[id]? = some t) (hp : t.status = .fired) :
    runClosure id s = some (timerFunc t.key s) := by
  unfold runClosure
  rw [ht]
  simp only
  rw [if_pos hp]

/-- The timer that has just expired. -/
theorem markFired_timer (id : Nat) (s : Store K V) (t : Timer K) (ht : s.timers[id]? = some t) :
    (markFired id s).timers[id]? = some { t with status := .fired } := by
  show (s.timers.modify _ id)[id]? = _
  rw [List.getElem?_modify, ht]
  simp

/-- A firing is an expiry followed at once by the run of the closure. -/
theorem fire_eq_expire_runClosure (id : Nat) (s : Store K V) :
    fire id s = (expire id s).bind (runClosure id) := by
  unfold fire expire
  cases ht : s.timers[id]? with
  | none => rfl
  | some t =>
    simp only
    by_cases hc : t.status = .pending ∧ t.deadline ≤ s.now
    · rw [if_pos hc, if_pos hc]
      rw [Option.some_bind, runClosure_enabled id (markFired id s) _ (markFired_timer id s t ht) rfl]
    · rw [if_neg hc, if_neg hc]
      rfl

end interleaving

/-! ## Stores without a lifetime, and presence along a history -/

section noLifetime
variable [DecidableEq K]

theorem stopTimer_timers_nil (timer : Option Nat) (s : Store K V) (h : s.timers = []) :
    (stopTimer timer s).timers = [] := by
  cases timer with
  | none => exact h
  | some id =>
    show s.timers.modify Timer.Stop id = []
    rw [h]
    cases id <;> rfl

/-- The state written by Update, AddOrUpdate and LockedModify on a present key, when no
lifetime is configured and no timer exists. -/
theorem rewrite_noTimers (u : K) (s : Store K V) (e new : entry V) (hl : s.c.lifetime = -1)
    (ht : s.timers = []) :
    ((stopTimer e.timer (armTimer u s).2).setData
      ((stopTimer e.timer (armTimer u s).2).c.data.insert u new)).timers = [] ∧
    ((stopTimer e.timer (armTimer u s).2).setData
      ((stopTimer e.timer (armTimer u s).2).c.data.insert u new)).c.lifetime = -1 := by
  rw [armTimer_none u s hl]
  exact ⟨stopTimer_timers_nil _ _ ht, by rw [← hl]; simp only [Store.setData, stopTimer_c]⟩

/-- In a store with lifetime `-1` and no timer, no step creates a timer and no firing
can be performed. -/
theorem step_noTimers (s s1 : Store K V) (op : Op K V) (hl : s.c.lifetime = -1)
    (ht : s.timers = []) (h : step s op = some s1) :
    s1.timers = [] ∧ s1.c.lifetime = -1 ∧ ∀ id, op ≠ .fire id := by
  cases op with
  | add u value =>
    cases h
    refine ⟨?_, ?_, fun id hh => by cases hh⟩
    · cases hu : s.c.data.lookup u with
      | none => rw [Add_absent u value s hu, armTimer_none u s hl]; exact ht
      | some e => rw [Add_present u value s e hu, armTimer_none u s hl]; exact ht
    · cases hu : s.c.data.lookup u with
      | none => rw [Add_absent u value s hu, armTimer_none u s hl]; exact hl
      | some e => rw [Add_present u value s e hu, armTimer_none u s hl]; exact hl
  | update u value =>
    cases h
    cases hu : s.c.data.lookup u with
    | none =>
      simp only [step, Update_absent u value s hu, armTimer_none u s hl]
      exact ⟨ht, hl, fun id hh => by cases hh⟩
    | some e =>
      simp only [step, Update_present u value s e hu]
      exact ⟨(rewrite_noTimers u s e _ hl ht).1, (rewrite_noTimers u s e _ hl ht).2,
        fun id hh => by cases hh⟩
  | addOrUpdate u value =>
    cases h
    cases hu : s.c.data.lookup u with
    | none =>
      simp only [step, AddOrUpdate_absent u value s hu, armTimer_none u s hl]
      exact ⟨ht, hl, fun id hh => by cases hh⟩
    | some e =>
      simp only [step, AddOrUpdate_present u value s e hu]
      exact ⟨(rewrite_noTimers u s e _ hl ht).1, (rewrite_noTimers u s e _ hl ht).2,
        fun id hh => by cases hh⟩
  | get u =>
    cases h
    have : (Get u s).2 = s := by unfold Get; split <;> rfl
    rw [this]
    exact ⟨ht, hl, fun id hh => by cases hh⟩
  | remove u =>
    cases h
    cases hu : s.c.data.lookup u with
    | none =>
      simp only [Remove, removeNotify_absent u false s hu]
      exact ⟨ht, hl, fun id hh => by cases hh⟩
    | some e =>
      simp only [Remove, removeNotify_present u false s e hu, callExpirer_false]
      exact ⟨stopTimer_timers_nil _ _ ht, by rw [← hl]; simp only [Store.setData, stopTimer_c],
        fun id hh => by cases hh⟩
  | sizeOf => cases h; exact ⟨ht, hl, fun id hh => by cases hh⟩
  | lockedModify u add increment =>
    cases h
    cases hu : s.c.data.lookup u with
    | none =>
      simp only [step, LockedModify_absent u add increment s hu, armTimer_none u s hl]
      exact ⟨ht, hl, fun id hh => by cases hh⟩
    | some e =>
      simp only [step, LockedModify_present u add increment s e hu]
      exact ⟨(rewrite_noTimers u s e _ hl ht).1, (rewrite_noTimers u s e _ hl ht).2,
        fun id hh => by cases hh⟩
  | fire id =>
    obtain ⟨t, ht1, _⟩ := fire_some id s s1 h
    rw [ht] at ht1
    simp at ht1
  | sleep d => cases h; exact ⟨ht, hl, fun id hh => by cases hh⟩

/-- Presence after an insertion under any key. -/
theorem present_insert (k u : K) (s : Store K V) (e : entry V)
    (h : (s.c.data.lookup k).isSome = true ∨ k = u) :
    present k (s.setData (s.c.data.insert u e)) = true := by
  unfold present
  rw [setData_data]
  by_cases hk : k = u
  · subst hk; rw [AList.lookup_insert]; rfl
  · rw [AList.lookup_insert_ne hk]
    rcases h with h | h
    · exact h
    · exact absurd h hk

/-- A step that is neither `Remove k` nor a timer firing keeps key `k` present. -/
theorem step_keeps_present (k : K) (s s1 : Store K V) (op : Op K V)
    (h : step s op = some s1) (hp : present k s = true) (hr : op ≠ .remove k)
    (hf : ∀ id, op ≠ .fire id) : present k s1 = true := by
  have hp0 : (s.c.data.lookup k).isSome = true := hp
  have hpa : ∀ u : K, ((armTimer u s).2.c.data.lookup k).isSome = true := by
    intro u; rw [armTimer_c]; exact hp0
  have hps : ∀ (u : K) (t : Option Nat),
      ((stopTimer t (armTimer u s).2).c.data.lookup k).isSome = true := by
    intro u t; rw [stopTimer_c]; exact hpa u
  cases op with
  | add u value =>
    cases h
    cases hu : s.c.data.lookup u with
    | none => rw [Add_absent u value s hu]; exact present_insert k u _ _ (Or.inl (hpa u))
    | some e => rw [Add_present u value s e hu]; exact hpa u
  | update u value =>
    cases h
    cases hu : s.c.data.lookup u with
    | none => simp only [Update_absent u value s hu]; exact hpa u
    | some e =>
      simp only [Update_present u value s e hu]
      exact present_insert k u _ _ (Or.inl (hps u _))
  | addOrUpdate u value =>
    cases h
    cases hu : s.c.data.lookup u with
    | none =>
      simp only [AddOrUpdate_absent u value s hu]
      exact present_insert k u _ _ (Or.inl (hpa u))
    | some e =>
      simp only [AddOrUpdate_present u value s e hu]
      exact present_insert k u _ _ (Or.inl (hps u _))
  | get u =>
    cases h
    have : (Get u s).2 = s := by unfold Get; split <;> rfl
    rw [this]; exact hp
  | remove u =>
    cases h
    have hku : k ≠ u := fun hh => hr (by rw [hh])
    cases hu : s.c.data.lookup u with
    | none => simp only [Remove, removeNotify_absent u false s hu]; exact hp
    | some e =>
      simp only [Remove, removeNotify_present u false s e hu, callExpirer_false]
      unfold present
      rw [setData_data, AList.lookup_erase_ne hku, stopTimer_c]
      exact hp0
  | sizeOf => cases h; exact hp
  | lockedModify u add increment =>
    cases h
    cases hu : s.c.data.lookup u with
    | none => simp only [LockedModify_absent u add increment s hu]; exact hpa u
    | some e =>
      simp only [LockedModify_present u add increment s e hu]
      exact present_insert k u _ _ (Or.inl (hps u _))
  | fire id => exact absurd rfl (hf id)
  | sleep d => cases h; exact hp

/-- Along a history without `Remove k`, in a store with lifetime `-1` and no timer, key `k`
stays present and no timer is ever created. -/
theorem run_noTimers_present (k : K) (hist : List (Op K V)) : ∀ (s s1 : Store K V),
    s.c.lifetime = -1 → s.timers = [] → present k s = true →
    (∀ op ∈ hist, op ≠ .remove k) → run s hist = some s1 →
    present k s1 = true ∧ s1.timers = [] ∧ s1.c.lifetime = -1 := by
  induction hist with
  | nil =>
    intro s s1 hl ht hp _ h
    cases h
    exact ⟨hp, ht, hl⟩
  | cons op ops ih =>
    intro s s1 hl ht hp hr h
    unfold run at h
    cases hs : step s op with
    | none => rw [hs] at h; cases h
    | some s0 =>
      rw [hs] at h
      obtain ⟨a1, a2, a3⟩ := step_noTimers s s0 op hl ht hs
      have a4 := step_keeps_present k s s0 op hs hp (hr op (List.mem_cons_self _ _)) a3
      exact ih s0 s1 a2 a1 a4 (fun o ho => hr o (List.mem_cons_of_mem _ ho)) h

/-- Along any history, a store with lifetime `-1` and no timer keeps both. -/
theorem run_noTimers (hist : List (Op K V)) : ∀ (s s1 : Store K V),
    s.c.lifetime = -1 → s.timers = [] → run s hist = some s1 →
    s1.timers = [] ∧ s1.c.lifetime = -1 := by
  induction hist with
  | nil =>
    intro s s1 hl ht h
    cases h
    exact ⟨ht, hl⟩
  | cons op ops ih =>
    intro s s1 hl ht h
    unfold run at h
    cases hs : step s op with
    | none => rw [hs] at h; cases h
    | some s0 =>
      rw [hs] at h
      obtain ⟨a1, a2, _⟩ := step_noTimers s s0 op hl ht hs
      exact ih s0 s1 a2 a1 h

/-- The timers after Add are those after its prologue. -/
theorem Add_timers (u : K) (value : V) (s : Store K V) :
    (Add u value s).2.timers = (armTimer u s).2.timers := by
  cases hu : s.c.data.lookup u with
  | none => rw [Add_absent u value s hu]; rfl
  | some e => rw [Add_present u value s e hu]

/-- With a lifetime other than `-1` the prologue appends one pending timer for the key. -/
theorem armTimer_timers_some (u : K) (s : Store K V) (h : s.c.lifetime ≠ -1) :
    (armTimer u s).2.timers =
      s.timers ++ [{ key := u, deadline := s.now + s.c.lifetime, status := .pending }] := by
  unfold armTimer AfterFunc
  rw [if_pos h]

end noLifetime

/-! ## Counting the notifier calls on one value -/

section countingLemmas
variable [DecidableEq K] [DecidableEq V]

theorem filter_kerase {E : Type} (q : E → Bool) (u : K) :
    ∀ l : List (Sigma (fun _ : K => E)),
    ((List.kerase u l).filter (fun x => q x.2)).length +
      (match List.dlookup u l with
        | some e => (q e).toNat
        | none => 0)
      = (l.filter (fun x => q x.2)).length := by
  intro l
  induction l with
  | nil => simp
  | cons x t ih =>
    obtain ⟨a, b⟩ := x
    by_cases h : u = a
    · subst h
      simp only [List.kerase_cons_eq, List.dlookup_cons_eq, List.filter_cons]
      cases hq : q b <;> simp
    · rw [List.kerase_cons_ne h, List.dlookup_cons_ne _ _ h]
      simp only [List.filter_cons]
      split
      · simp only [List.length_cons]; omega
      · exact ih

theorem holdersD_erase_none (p : V) (d : AList (fun _ : K => entry V)) (u : K)
    (h : d.lookup u = none) : holdersD p (d.erase u) = holdersD p d := by
  have := filter_kerase (fun e : entry V => decide (e.value = p)) u d.entries
  have h1 : List.dlookup u d.entries = none := h
  rw [h1] at this
  simpa [holdersD, AList.erase] using this

theorem holdersD_erase_some (p : V) (d : AList (fun _ : K => entry V)) (u : K) (e : entry V)
    (h : d.lookup u = some e) :
    holdersD p (d.erase u) + (decide (e.value = p)).toNat = holdersD p d := by
  have := filter_kerase (fun e : entry V => decide (e.value = p)) u d.entries
  have h1 : List.dlookup u d.entries = some e := h
  rw [h1] at this
  simpa [holdersD, AList.erase] using this

theorem holdersD_insert (p : V) (d : AList (fun _ : K => entry V)) (u : K) (e : entry V) :
    holdersD p (d.insert u e) = holdersD p (d.erase u) + (decide (e.value = p)).toNat := by
  unfold holdersD
  rw [AList.insert_entries]
  simp only [AList.erase, List.filter_cons]
  by_cases h : e.value = p <;> simp [h]

/-- Counts after a write of `new` under `u` on top of a state with the map and the notifier
calls of `s`. -/
theorem count_insert (p : V) (u : K) (new : entry V) (t s : Store K V)
    (hd : t.c.data = s.c.data) (hn : t.notified = s.notified) :
    notifiedCount p (t.setData (t.c.data.insert u new)) = notifiedCount p s ∧
    holders p (t.setData (t.c.data.insert u new)) =
      holdersD p (s.c.data.erase u) + (decide (new.value = p)).toNat := by
  constructor
  · unfold notifiedCount
    rw [setData_notified, hn]
  · unfold holders
    rw [setData_data, hd, holdersD_insert]

theorem notifiedCount_callExpirer (p : V) (notify : Bool) (u : K) (e : entry V)
    (s : Store K V) :
    notifiedCount p (callExpirer notify u e s) ≤
      notifiedCount p s + (notify && decide (e.value = p)).toNat := by
  unfold callExpirer notifiedCount
  split
  · rw [List.filter_append, List.length_append]
    by_cases h : e.value = p <;> simp [h]
  · exact Nat.le_add_right _ _

/-- Counts after removeNotify on a present key. -/
theorem count_removeNotify (p : V) (notify : Bool) (u : K) (e : entry V) (s : Store K V)
    (h : s.c.data.lookup u = some e) :
    notifiedCount p (removeNotify u notify s).2 ≤
      notifiedCount p s + (notify && decide (e.value = p)).toNat ∧
    holders p (removeNotify u notify s).2 + (decide (e.value = p)).toNat = holders p s := by
  rw [removeNotify_present u notify s e h]
  constructor
  · have := notifiedCount_callExpirer p notify u e (stopTimer e.timer s)
    have h2 : notifiedCount p (stopTimer e.timer s) = notifiedCount p s := by
      unfold notifiedCount; rw [stopTimer_notified]
    rw [h2] at this
    exact this
  · unfold holders
    rw [setData_data, callExpirer_c, stopTimer_c]
    exact holdersD_erase_some p s.c.data u e h

theorem count_same (p : V) (t s : Store K V) (hd : t.c.data = s.c.data)
    (hn : t.notified = s.notified) :
    notifiedCount p t = notifiedCount p s ∧ holders p t = holders p s := by
  unfold notifiedCount holders
  rw [hd, hn]
  exact ⟨rfl, rfl⟩

/-- Counts after the write shared by Update, AddOrUpdate and LockedModify on a present
key. -/
theorem count_rewrite (p : V) (u : K) (e new : entry V) (s : Store K V)
    (h : s.c.data.lookup u = some e) :
    notifiedCount p ((stopTimer e.timer (armTimer u s).2).setData
      ((stopTimer e.timer (armTimer u s).2).c.data.insert u new)) = notifiedCount p s ∧
    holders p ((stopTimer e.timer (armTimer u s).2).setData
      ((stopTimer e.timer (armTimer u s).2).c.data.insert u new)) +
        (decide (e.value = p)).toNat =
      holders p s + (decide (new.value = p)).toNat := by
  obtain ⟨a, b⟩ := count_insert p u new (stopTimer e.timer (armTimer u s).2) s
    (by rw [stopTimer_c, armTimer_c]) (by rw [stopTimer_notified, armTimer_notified])
  refine ⟨a, ?_⟩
  rw [b]
  have := holdersD_erase_some p s.c.data u e h
  unfold holders
  omega

/-- Counts after a write on an absent key. -/
theorem count_fresh (p : V) (u : K) (new : entry V) (s : Store K V)
    (h : s.c.data.lookup u = none) :
    notifiedCount p ((armTimer u s).2.setData ((armTimer u s).2.c.data.insert u new))
      = notifiedCount p s ∧
    holders p ((armTimer u s).2.setData ((armTimer u s).2.c.data.insert u new)) =
      holders p s + (decide (new.value = p)).toNat := by
  obtain ⟨a, b⟩ := count_insert p u new (armTimer u s).2 s
    (by rw [armTimer_c]) (armTimer_notified u s)
  refine ⟨a, ?_⟩
  rw [b, holdersD_erase_none p s.c.data u h]
  rfl

/-- Counts after the timer closure ran. -/
theorem count_timerFunc (p : V) (u : K) (s : Store K V) :
    notifiedCount p (timerFunc u s) + holders p (timerFunc u s) ≤
      notifiedCount p s + holders p s := by
  cases hu : s.c.data.lookup u with
  | none =>
    have ht : timerFunc u s = warn u s := by
      unfold timerFunc
      rw [removeNotify_absent u true s hu]
    rw [ht]
    exact le_of_eq rfl
  | some e =>
    have ht : timerFunc u s = (removeNotify u true s).2 := by
      unfold timerFunc
      rw [removeNotify_present u true s e hu]
    obtain ⟨a, b⟩ := count_removeNotify p true u e s hu
    rw [ht]
    simp only [Bool.true_and] at a
    omega

/-- One step: the notifier calls on `p`, the entries holding `p` and the explicit removal
of `p` by this step are paid for by what was there before and by this step storing `p`. -/
theorem step_count (p : V) (s s1 : Store K V) (op : Op K V) (h : step s op = some s1) :
    notifiedCount p s1 + holders p s1 + (opRemoves p s op).toNat ≤
      notifiedCount p s + holders p s + (opStores p s op).toNat := by
  cases op with
  | add u value =>
    cases h
    cases hu : s.c.data.lookup u with
    | none =>
      obtain ⟨a, b⟩ := count_fresh p u
        { value := value, timestamp := (armTimer u s).2.now, timer := (armTimer u s).1,
          expirer := (armTimer u s).2.c.expirer } s hu
      rw [Add_absent u value s hu, a, b]
      simp only [opRemoves, opStores, hu, Bool.toNat_false]
      omega
    | some e =>
      obtain ⟨a, b⟩ := count_same p (armTimer u s).2 s (by rw [armTimer_c])
        (armTimer_notified u s)
      rw [Add_present u value s e hu, a, b]
      simp [opRemoves]
  | update u value =>
    cases h
    cases hu : s.c.data.lookup u with
    | none =>
      obtain ⟨a, b⟩ := count_same p (armTimer u s).2 s (by rw [armTimer_c])
        (armTimer_notified u s)
      rw [Update_absent u value s hu, a, b]
      simp [opRemoves]
    | some e =>
      obtain ⟨a, b⟩ := count_rewrite p u e
        { value := value, timestamp := (armTimer u s).2.now, timer := (armTimer u s).1,
          expirer := (stopTimer e.timer (armTimer u s).2).c.expirer } s hu
      rw [Update_present u value s e hu, a]
      by_cases h1 : value = p <;> by_cases h2 : e.value = p <;>
        simp [opRemoves, opStores, hu, h1, h2] at b ⊢ <;> omega
  | addOrUpdate u value =>
    cases h
    cases hu : s.c.data.lookup u with
    | none =>
      obtain ⟨a, b⟩ := count_fresh p u
        { value := value, timestamp := (armTimer u s).2.now, timer := (armTimer u s).1,
          expirer := (armTimer u s).2.c.expirer } s hu
      simp only [step, Option.some.injEq] at *
      rw [AddOrUpdate_absent u value s hu, a, b]
      simp only [opRemoves, opStores, hu, Bool.toNat_false]
      omega
    | some e =>
      obtain ⟨a, b⟩ := count_rewrite p u e
        { value := value, timestamp := (armTimer u s).2.now, timer := (armTimer u s).1,
          expirer := (stopTimer e.timer (armTimer u s).2).c.expirer } s hu
      rw [AddOrUpdate_present u value s e hu, a]
      by_cases h1 : value = p <;> by_cases h2 : e.value = p <;>
        simp [opRemoves, opStores, hu, h1, h2] at b ⊢ <;> omega
  | get u =>
    cases h
    have : (Get u s).2 = s := by unfold Get; split <;> rfl
    rw [this]
    simp [opRemoves]
  | remove u =>
    cases h
    cases hu : s.c.data.lookup u with
    | none =>
      simp only [Remove, removeNotify_absent u false s hu, opRemoves, opStores, hu,
        Bool.toNat_false]
      omega
    | some e =>
      obtain ⟨a, b⟩ := count_removeNotify p false u e s hu
      simp only [Remove, opRemoves, opStores, hu, Bool.toNat_false, Bool.false_and] at a b ⊢
      omega
  | sizeOf => cases h; simp [opRemoves, SizeOf]
  | lockedModify u add increment =>
    cases h
    cases hu : s.c.data.lookup u with
    | none =>
      obtain ⟨a, b⟩ := count_same p (armTimer u s).2 s (by rw [armTimer_c])
        (armTimer_notified u s)
      rw [LockedModify_absent u add increment s hu, a, b]
      simp [opRemoves]
    | some e =>
      obtain ⟨a, b⟩ := count_rewrite p u e
        { value := add e.value increment, timestamp := (armTimer u s).2.now,
          timer := (armTimer u s).1,
          expirer := (stopTimer e.timer (armTimer u s).2).c.expirer } s hu
      rw [LockedModify_present u add increment s e hu, a]
      simp only [opRemoves, opStores, hu, Bool.toNat_false] at b ⊢
      generalize add e.value increment = nv at b ⊢
      by_cases h1 : nv = p <;> by_cases h2 : e.value = p <;>
        simp [h1, h2] at b ⊢ <;> omega
  | fire id =>
    obtain ⟨t, _, _, _, hs1⟩ := fire_some id s s1 h
    have := count_timerFunc p t.key (markFired id s)
    obtain ⟨a, b⟩ := count_same p (markFired id s) s rfl rfl
    rw [a, b] at this
    rw [hs1]
    simp only [opRemoves, opStores, Bool.toNat_false]
    omega
  | sleep d =>
    cases h
    obtain ⟨a, b⟩ := count_same p (sleep d s) s rfl rfl
    rw [a, b]
    simp [opRemoves]

/-- Along a history: notifier calls on `p`, entries holding `p` and explicit removals of
`p` are bounded by what was there at the start plus the number of steps storing `p`. -/
theorem run_count (p : V) (hist : List (Op K V)) : ∀ (s s1 : Store K V),
    run s hist = some s1 →
    notifiedCount p s1 + holders p s1 + explicitRemovalsOf p s hist ≤
      notifiedCount p s + holders p s + storesOf p s hist := by
  induction hist with
  | nil =>
    intro s s1 h
    cases h
    simp [explicitRemovalsOf, storesOf]
  | cons op ops ih =>
    intro s s1 h
    unfold run at h
    cases hs : step s op with
    | none => rw [hs] at h; cases h
    | some s0 =>
      rw [hs] at h
      have a := step_count p s s0 op hs
      have b := ih s0 s1 h
      simp only [explicitRemovalsOf, storesOf, hs]
      omega

/-- One notifier call writes at most one Cleanup record, about its own item. -/
theorem notifier_records_le (deref : V → Option TCPConnection) (p v : V) :
    (((TCPConnectionExpirationNotifier (deref v)).map (fun r => (v, r))).filter
      (fun y => decide (y.1 = p))).length ≤ (decide (v = p)).toNat := by
  unfold TCPConnectionExpirationNotifier
  cases deref v with
  | none => simp
  | some c => by_cases h : v = p <;> simp [h]

theorem cleanupLog_le_aux (deref : V → Option TCPConnection) (p : V)
    (l : List (ExpirationNotifier × K × V)) :
    (((l.filter (fun x => decide (x.1 = tcpConnectionNotifier))).flatMap
        (fun x => (TCPConnectionExpirationNotifier (deref x.2.2)).map (fun r => (x.2.2, r)))).filter
      (fun y => decide (y.1 = p))).length ≤ (l.filter (fun x => decide (x.2.2 = p))).length := by
  induction l with
  | nil => simp
  | cons x xs ih =>
    have hx := notifier_records_le deref p x.2.2
    have hr : ((x :: xs).filter (fun x => decide (x.2.2 = p))).length =
        (decide (x.2.2 = p)).toNat + (xs.filter (fun x => decide (x.2.2 = p))).length := by
      by_cases h : x.2.2 = p <;> simp [h, List.filter_cons, Nat.add_comm]
    rw [hr]
    by_cases h1 : x.1 = tcpConnectionNotifier
    · rw [List.filter_cons_of_pos (by simpa using h1), List.flatMap_cons, List.filter_append,
        List.length_append]
      omega
    · rw [List.filter_cons_of_neg (by simpa using h1)]
      omega

/-- The Cleanup records about the item `p` are at most as many as the notifier calls on
`p`. -/
theorem cleanupLog_le (deref : V → Option TCPConnection) (p : V) (s : Store K V) :
    ((cleanupLog deref s).filter (fun x => decide (x.1 = p))).length ≤ notifiedCount p s :=
  cleanupLog_le_aux deref p s.notified

end countingLemmas

/-! ## Facts about the flow context -/

section connection

theorem SetState_state (tl : Int) (st : TCPFlowState) (c : TCPConnection) :
    (SetState tl st c).state = st := by
  unfold SetState
  split <;> rfl

theorem SetState_logs_traced (tl : Int) (st : TCPFlowState) (c : TCPConnection) (h : tl ≠ 0) :
    (SetState tl st c).logs = c.logs ++ [.setState { state := st, auth := c.Auth } st] := by
  unfold SetState
  simp only [if_neg h]
  rfl

theorem SetReported_flowReported (tl : Int) (dropped : Bool) (c : TCPConnection) :
    (SetReported tl dropped c).flowReported = true := by
  by_cases ht : tl = 0 <;> cases h : c.flowReported <;> simp [SetReported, h, ht]

theorem SetReported_logs_traced (tl : Int) (dropped : Bool) (c : TCPConnection) (h : tl ≠ 0) :
    (SetReported tl dropped c).logs =
      c.logs ++ [.flowReported c.flowReported dropped (connText c)] := by
  unfold SetReported
  cases hf : c.flowReported <;> simp [h, connText]

/-- Every method leaves the authentication information as it is. -/
theorem ConnOp.apply_Auth (tl : Int) (c : TCPConnection) (op : ConnOp) :
    (op.apply tl c).Auth = c.Auth := by
  cases op with
  | setState st => simp only [ConnOp.apply, SetState]; split <;> rfl
  | setReported d =>
    by_cases ht : tl = 0 <;> cases h : c.flowReported <;>
      simp [ConnOp.apply, SetReported, h, ht]
  | setPacketInfo a b => simp only [ConnOp.apply, SetPacketInfo]; split <;> rfl
  | cleanup e => simp only [ConnOp.apply, Cleanup]; split <;> rfl
  | text => rfl

/-- The reported flag after one method call. -/
theorem ConnOp.apply_flowReported (tl : Int) (c : TCPConnection) (op : ConnOp) :
    (op.apply tl c).flowReported = (c.flowReported || op.isSetReported) := by
  cases op with
  | setState st =>
    simp only [ConnOp.apply, SetState, ConnOp.isSetReported, Bool.or_false]; split <;> rfl
  | setReported d =>
    simp only [ConnOp.apply, SetReported_flowReported, ConnOp.isSetReported, Bool.or_true]
  | setPacketInfo a b =>
    simp only [ConnOp.apply, SetPacketInfo, ConnOp.isSetReported, Bool.or_false]; split <;> rfl
  | cleanup e =>
    simp only [ConnOp.apply, Cleanup, ConnOp.isSetReported, Bool.or_false]; split <;> rfl
  | text => simp [ConnOp.apply, ConnOp.isSetReported]

theorem applyOps_append (tl : Int) (c : TCPConnection) (ops1 ops2 : List ConnOp) :
    applyOps tl c (ops1 ++ ops2) = applyOps tl (applyOps tl c ops1) ops2 := by
  unfold applyOps
  rw [List.foldl_append]

theorem applyOps_Auth (tl : Int) (ops : List ConnOp) : ∀ c : TCPConnection,
    (applyOps tl c ops).Auth = c.Auth := by
  induction ops with
  | nil => intro c; rfl
  | cons op ops ih =>
    intro c
    show (applyOps tl (op.apply tl c) ops).Auth = c.Auth
    rw [ih, ConnOp.apply_Auth]

/-- The reported flag after a sequence of method calls: set at construction or by a
SetReported of the sequence. -/
theorem applyOps_flowReported (tl : Int) (ops : List ConnOp) : ∀ c : TCPConnection,
    (applyOps tl c ops).flowReported = (c.flowReported || ops.any ConnOp.isSetReported) := by
  induction ops with
  | nil => intro c; simp [applyOps]
  | cons op ops ih =>
    intro c
    show (applyOps tl (op.apply tl c) ops).flowReported = _
    rw [ih, ConnOp.apply_flowReported, List.any_cons, Bool.or_assoc]

/-- Which record Cleanup writes. -/
theorem Cleanup_record (e : Bool) (c : TCPConnection) :
    ((Cleanup e c).1.level = (if c.flowReported then ZapLevel.debug else ZapLevel.error)) ∧
    ((Cleanup e c).1.msg =
      (if c.flowReported then "Connection reported" else "Connection not reported")) := by
  unfold Cleanup
  cases h : c.flowReported <;> simp

end connection

/-! ## Facts about the modelled codec -/

section codec

/-- What a successful construction returns. -/
theorem NewJWT_ok (validity : Int) (issuer : String) (sec : Secrets) (cfg : JWTConfig)
    (h : NewJWT validity issuer (some sec) = .ok cfg) :
    issuer.length ≤ MaxServerName ∧
    cfg.secrets = sec ∧ cfg.ValidityPeriod = validity ∧
    cfg.Issuer = issuer ++ String.mk (List.replicate (MaxServerName - issuer.length) ' ') := by
  unfold NewJWT at h
  by_cases h2 : issuer.length > MaxServerName
  · rw [if_pos h2] at h; cases h
  · rw [if_neg h2] at h
    cases sec with
    | psk key =>
      simp only [Except.ok.injEq] at h
      subst h
      exact ⟨Nat.le_of_not_lt h2, rfl, rfl, rfl⟩
    | pki a b c =>
      simp only [Except.ok.injEq] at h
      subst h
      exact ⟨Nat.le_of_not_lt h2, rfl, rfl, rfl⟩

/-- A token signed by the codec passes its own signature check when the secrets are valid
and the caller supplies no key or the key of the local certificate, provided the token
carries the certificate when no key is supplied. -/
theorem verifySignature_own (sch : Scheme) (c : JWTConfig) (now : Int) (isAck : Bool)
    (claims : ConnectionClaims) (peerKey : Option Nat) (hv : validSecrets sch c.secrets)
    (hk : peerKey = ackKey c.secrets ∨ (peerKey = none ∧ isAck = false)) :
    verifySignature sch c (CreateAndSign sch c now isAck claims) peerKey = true := by
  unfold verifySignature CreateAndSign
  cases hs : c.secrets with
  | psk key => simp
  | pki a b ca =>
    rw [hs] at hv hk
    obtain ⟨h1, h2⟩ := hv
    rcases hk with hk | ⟨hk, hack⟩
    · subst hk
      simp [ackKey, h1, h2]
    · subst hk
      simp [hack, h1, h2]

/-- Construction with nil secrets fails also for an identifier that fits the issuer
width, as the test file expects. -/
theorem NewJWT_nil_secrets_fails :
    "TEST".length ≤ MaxServerName ∧
    NewJWT 10 "TEST" none = .error .InvalidConfiguration := by
  refine ⟨by decide, by rfl⟩

end codec

/-! ## Facts about the supervisor -/

section supervisor

theorem Get_snd {K V : Type} [DecidableEq K] (u : K) (s : Store K V) : (Get u s).2 = s := by
  unfold Get
  split <;> rfl

/-- What a tracked version says about the map of the tracker. -/
theorem trackedVersion_some (contextID : String) (s : Config) (v : Int)
    (h : trackedVersion contextID s = some v) :
    ∃ (e : entry Item) (d : cacheData),
      s.versionTracker.c.data.lookup contextID = some e ∧ e.value = .data d ∧ d.version = v := by
  unfold trackedVersion at h
  cases hl : s.versionTracker.c.data.lookup contextID with
  | none => rw [hl] at h; cases h
  | some e =>
    simp only [hl] at h
    cases hv : e.value with
    | int n => simp only [hv] at h; cases h
    | data d =>
      simp only [hv, Option.some.injEq] at h
      exact ⟨e, d, rfl, hv, h⟩

/-- Unsupervise on a tracked contextID removes it from the tracker and returns nil. -/
theorem Unsupervise_tracked (contextID : String) (s : Config) (e : entry Item) (d : cacheData)
    (hl : s.versionTracker.c.data.lookup contextID = some e) (hv : e.value = .data d) :
    ∃ s1 : Config, Unsupervise contextID s = some (none, s1) ∧
      s1.versionTracker.c.data.lookup contextID = none ∧ s1.impl = s.impl := by
  have hg : (Get contextID s.versionTracker).1 = .ok (.data d) := by
    rw [Get_present contextID _ e hl, hv]
  unfold Unsupervise
  simp only [hg, Get_snd]
  refine ⟨_, rfl, ?_, rfl⟩
  show (Remove contextID s.versionTracker).2.c.data.lookup contextID = none
  unfold Remove
  rw [removeNotify_present contextID false _ e hl, setData_data]
  exact AList.lookup_erase _ _

/-- The clean-up after a failure of the implementor on a tracked contextID. -/
theorem cleanupAfterFailure_tracked (contextID msg err : String) (s : Config) (e : entry Item)
    (d : cacheData) (hl : s.versionTracker.c.data.lookup contextID = some e)
    (hv : e.value = .data d) :
    ∃ s1 : Config, cleanupAfterFailure contextID msg err s = some (some err, s1) ∧
      s1.versionTracker.c.data.lookup contextID = none ∧ s1.impl = s.impl := by
  obtain ⟨s1, h1, h2, h3⟩ := Unsupervise_tracked contextID s e d hl hv
  unfold cleanupAfterFailure
  rw [h1]
  exact ⟨s1, rfl, h2, h3⟩

/-- The entry of a key right after AddOrUpdate. -/
theorem lookup_AddOrUpdate {K V : Type} [DecidableEq K] (u : K) (value : V) (s : Store K V) :
    ∃ e : entry V, (AddOrUpdate u value s).c.data.lookup u = some e ∧ e.value = value := by
  cases hl : s.c.data.lookup u with
  | none =>
    rw [AddOrUpdate_absent u value s hl, setData_data, AList.lookup_insert]
    exact ⟨_, rfl, rfl⟩
  | some e =>
    rw [AddOrUpdate_present u value s e hl, setData_data, AList.lookup_insert]
    exact ⟨_, rfl, rfl⟩

/-- The result and the entry of a key right after LockedModify on a present key. -/
theorem lookup_LockedModify {K V : Type} [DecidableEq K] (u : K) (f : V → V → V)
    (increment : V) (s : Store K V) (e : entry V) (hl : s.c.data.lookup u = some e) :
    (LockedModify u f increment s).1 = .ok (f e.value increment) ∧
    ∃ e1 : entry V, (LockedModify u f increment s).2.c.data.lookup u = some e1 ∧
      e1.value = f e.value increment := by
  rw [LockedModify_present u f increment s e hl, setData_data, AList.lookup_insert]
  exact ⟨rfl, _, rfl, rfl⟩

/-- The create path: complete info, contextID not tracked. -/
theorem Supervise_untracked (contextID : String) (info : PUInfo) (s : Config)
    (hc : info.complete) (hl : s.versionTracker.c.data.lookup contextID = none) :
    (s.impl.ConfigureRules s.calls 0 contextID info = none →
      ∃ s1 : Config, Supervise contextID (some info) s = some (none, s1) ∧
        trackedVersion contextID s1 = some 0 ∧
        s1.calls = s.calls ++ [.configureRules 0 contextID] ∧ s1.impl = s.impl) ∧
    (∀ err, s.impl.ConfigureRules s.calls 0 contextID info = some err →
      ∃ s1 : Config, Supervise contextID (some info) s = some (some err, s1) ∧
        s1.versionTracker.c.data.lookup contextID = none ∧ s1.impl = s.impl) := by
  obtain ⟨hp, hr⟩ := hc
  obtain ⟨ips, hips⟩ := Option.isSome_iff_exists.mp hp
  obtain ⟨runtime, hrun⟩ := Option.isSome_iff_exists.mp hr
  have hg : (Get contextID s.versionTracker).1 = .error "Item does not exist" := by
    rw [Get_absent contextID _ hl]
  have hS : Supervise contextID (some info) s = doCreatePU contextID info s := by
    unfold Supervise
    simp only [hips, hrun, Option.isNone_some, Bool.or_self, Bool.false_eq_true, if_false, hg,
      Get_snd]
  obtain ⟨e, he, hev⟩ := lookup_AddOrUpdate contextID
    (Item.data { version := 0, ips := ips, mark := runtime.mark,
                 port := match runtime.port with
                   | some p => p
                   | none => "0" }) s.versionTracker
  constructor
  · intro hok
    refine ⟨{ s with
        versionTracker := AddOrUpdate contextID
          (Item.data { version := 0, ips := ips, mark := runtime.mark,
                       port := match runtime.port with
                         | some p => p
                         | none => "0" }) s.versionTracker
        calls := s.calls ++ [.configureRules 0 contextID] }, ?_, ?_, rfl, rfl⟩
    · rw [hS]
      unfold doCreatePU
      simp only [hips, hrun, hok]
    · unfold trackedVersion
      simp only [he, hev]
  · intro err herr
    obtain ⟨s1, h1, h2, h3⟩ := cleanupAfterFailure_tracked contextID
      "Failed to clean up state while creating the PU" err
      { s with
        versionTracker := AddOrUpdate contextID
          (Item.data { version := 0, ips := ips, mark := runtime.mark,
                       port := match runtime.port with
                         | some p => p
                         | none => "0" }) s.versionTracker
        calls := s.calls ++ [.configureRules 0 contextID] } e _ he hev
    refine ⟨s1, ?_, h2, h3⟩
    rw [hS]
    unfold doCreatePU
    simp only [hips, hrun, herr]
    exact h1

/-- The update path: complete info, contextID tracked with version `v`. -/
theorem Supervise_tracked (contextID : String) (info : PUInfo) (s : Config) (v : Int)
    (hc : info.complete) (ht : trackedVersion contextID s = some v) :
    (s.impl.UpdateRules s.calls (wrap64 (v + 1)) contextID info = none →
      ∃ s1 : Config, Supervise contextID (some info) s = some (none, s1) ∧
        trackedVersion contextID s1 = some (wrap64 (v + 1)) ∧
        s1.calls = s.calls ++ [.updateRules (wrap64 (v + 1)) contextID] ∧ s1.impl = s.impl) ∧
    (∀ err, s.impl.UpdateRules s.calls (wrap64 (v + 1)) contextID info = some err →
      ∃ s1 : Config, Supervise contextID (some info) s = some (some err, s1) ∧
        s1.versionTracker.c.data.lookup contextID = none ∧ s1.impl = s.impl) := by
  obtain ⟨hp, hr⟩ := hc
  obtain ⟨ips, hips⟩ := Option.isSome_iff_exists.mp hp
  obtain ⟨runtime, hrun⟩ := Option.isSome_iff_exists.mp hr
  obtain ⟨e, d, hl, hev, hdv⟩ := trackedVersion_some contextID s v ht
  have hg : (Get contextID s.versionTracker).1 = .ok e.value := by
    rw [Get_present contextID _ e hl]
  have hS : Supervise contextID (some info) s = doUpdatePU contextID info s := by
    unfold Supervise
    simp only [hips, hrun, Option.isNone_some, Bool.or_self, Bool.false_eq_true, if_false, hg,
      Get_snd]
  have hadd : add e.value (.int 1) = .data { d with version := wrap64 (v + 1) } := by
    rw [hev, ← hdv]
    rfl
  obtain ⟨hres, e1, he1, he1v⟩ := lookup_LockedModify contextID add (.int 1) s.versionTracker e hl
  rw [hadd] at hres he1v
  constructor
  · intro hok
    refine ⟨{ s with
        versionTracker := (LockedModify contextID add (.int 1) s.versionTracker).2
        calls := s.calls ++ [.updateRules (wrap64 (v + 1)) contextID] }, ?_, ?_, rfl, rfl⟩
    · rw [hS]
      unfold doUpdatePU
      simp only [hres, hok]
    · unfold trackedVersion
      simp only [he1, he1v]
  · intro err herr
    obtain ⟨s1, h1, h2, h3⟩ := cleanupAfterFailure_tracked contextID
      "Failed to clean up state while updating the PU" err
      { s with
        versionTracker := (LockedModify contextID add (.int 1) s.versionTracker).2
        calls := s.calls ++ [.updateRules (wrap64 (v + 1)) contextID] } e1 _ he1 he1v
    refine ⟨s1, ?_, h2, h3⟩
    rw [hS]
    unfold doUpdatePU
    simp only [hres, herr]
    exact h1

theorem wrap64_idem (x : Int) : wrap64 (wrap64 x) = wrap64 x := by
  have := wrap64_add x 0
  simpa using this

theorem wrap64_small (x : Int) (h0 : 0 ≤ x) (h1 : x < 2 ^ 63) : wrap64 x = x := by
  unfold wrap64
  omega

/-- Successive Supervise calls on a tracked contextID with an implementor that never
fails: every call returns nil, raises the version by one and hands the raised version
to UpdateRules. -/
theorem superviseAll_tracked (contextID : String) (rest : List PUInfo) :
    ∀ (s : Config) (v : Int), s.impl.succeeds → (∀ i ∈ rest, i.complete) → wrap64 v = v →
      trackedVersion contextID s = some v →
      ∃ s1 : Config,
        superviseAll contextID rest s = some (List.replicate rest.length none, s1) ∧
        trackedVersion contextID s1 = some (wrap64 (v + rest.length)) ∧
        s1.calls = s.calls ++ (List.range rest.length).map
          (fun i : Nat => ImplCall.updateRules (wrap64 (v + (i : Int) + 1)) contextID) ∧
        s1.impl = s.impl := by
  induction rest with
  | nil =>
    intro s v _ _ hv ht
    refine ⟨s, rfl, ?_, ?_, rfl⟩
    · simpa [hv] using ht
    · simp
  | cons info rest ih =>
    intro s v hok hc hv ht
    obtain ⟨s0, h1, h2, h3, h4⟩ :=
      (Supervise_tracked contextID info s v (hc info (List.mem_cons_self _ _)) ht).1
        (hok _ _ _ _).2
    obtain ⟨s1, k1, k2, k3, k4⟩ := ih s0 (wrap64 (v + 1)) (by rw [h4]; exact hok)
      (fun i hi => hc i (List.mem_cons_of_mem _ hi)) (wrap64_idem _) h2
    refine ⟨s1, ?_, ?_, ?_, k4.trans h4⟩
    · simp only [superviseAll, h1, k1, List.length_cons, List.replicate_succ]
    · rw [k2, wrap64_add]
      congr 2
      simp only [List.length_cons]
      push_cast
      ring
    · rw [k3, h3, List.length_cons, List.range_succ_eq_map, List.map_cons, List.map_map,
        List.append_assoc]
      congr 1
      simp only [List.singleton_append, Nat.cast_zero, add_zero, List.cons.injEq, true_and]
      apply List.map_congr_left
      intro i _
      simp only [Function.comp_apply, Nat.succ_eq_add_one]
      congr 1
      have : wrap64 (v + 1) + (i : Int) + 1 = wrap64 (v + 1) + ((i : Int) + 1) := by ring
      rw [this, wrap64_add]
      congr 1
      push_cast
      ring

end supervisor

/-! ## Claims -/

section claims
variable [DecidableEq K]

/-- C5: for every store state and every absent key `k`, `Update k v` and
`LockedModify k f d` each return their not-found error, the outcome of LockedModify
is the same for every function `f` (it is never called), and both leave `SizeOf` and
the stored entries unchanged. -/
theorem Update_LockedModify_absent (s : Store K V) (k : K) (v d : V) (f : V → V → V)
    (h : present k s = false) :
    (Update k v s).1 = .error "Cannot update item - it doesn't exist" ∧
    (LockedModify k f d s).1 = .error "Item not found" ∧
    (∀ g : V → V → V, LockedModify k g d s = LockedModify k f d s) ∧
    (SizeOf (Update k v s).2).1 = (SizeOf s).1 ∧
    (SizeOf (LockedModify k f d s).2).1 = (SizeOf s).1 ∧
    (Update k v s).2.c.data = s.c.data ∧
    (LockedModify k f d s).2.c.data = s.c.data := by
  have hl : s.c.data.lookup k = none := by
    unfold present at h
    cases hh : s.c.data.lookup k with
    | none => rfl
    | some e => rw [hh] at h; cases h
  have hU := Update_absent k v s hl
  have hL := fun g => LockedModify_absent k g d s hl
  refine ⟨by rw [hU], by rw [hL], fun g => by rw [hL, hL], ?_, ?_, ?_, ?_⟩
  · rw [hU]; simp only [SizeOf, armTimer_c]
  · rw [hL]; simp only [SizeOf, armTimer_c]
  · rw [hU]; simp only [armTimer_c]
  · rw [hL]; simp only [armTimer_c]

/-- Witness for C5 on the empty store with lifetime 10. -/
theorem Update_LockedModify_absent_witness :
    present 1 (Store.start (NewCacheWithExpiration 10 : Cache Nat Int)) = false ∧
    (SizeOf (LockedModify 1 (fun a b => a + b) 5
      (Store.start (NewCacheWithExpiration 10 : Cache Nat Int))).2).1 = 0 :=
  ⟨rfl, (Update_LockedModify_absent (Store.start (NewCacheWithExpiration 10 : Cache Nat Int))
    1 7 5 (fun a b => a + b) rfl).2.2.2.2.1⟩

/-- C10: `Get k` fails with "Item does not exist" if and only if `k` is absent, otherwise
it returns the stored value; in both cases the whole state (entries with their values,
timestamps and timer handles, and every runtime timer) is left as it was. -/
theorem Get_result_and_frame (s : Store K V) (k : K) :
    ((Get k s).1 = .error "Item does not exist" ↔ present k s = false) ∧
    (∀ e : entry V, s.c.data.lookup k = some e → (Get k s).1 = .ok e.value) ∧
    (Get k s).2 = s := by
  unfold present
  cases hl : s.c.data.lookup k with
  | none =>
    rw [Get_absent k s hl]
    refine ⟨⟨fun _ => rfl, fun _ => rfl⟩, ?_, rfl⟩
    intro e he
    cases he
  | some e =>
    rw [Get_present k s e hl]
    refine ⟨⟨?_, ?_⟩, ?_, rfl⟩
    · intro h; cases h
    · intro h; cases h
    · intro e1 he
      cases he; rfl

/-- Witness for C10: key 1 holds 10 and `Get 1` returns it. -/
theorem Get_result_and_frame_witness :
    (Get 1 (Add 1 10 (Store.start (NewCacheWithExpiration 10 : Cache Nat Int))).2).1 = .ok 10 :=
  (Get_result_and_frame (Add 1 10 (Store.start (NewCacheWithExpiration 10 : Cache Nat Int))).2
    1).2.1 { value := 10, timestamp := 0, timer := some 0, expirer := none } rfl

/-- C7: for an entry holding an integer counter `c0` and every list of integer deltas,
running the calls `LockedModify k sum d`, each as one atomic step, in any order (every
permutation of the list) leaves the entry holding `c0` plus the sum of all deltas; with
Go `int` values the same holds for the sum taken with 64-bit overflow. -/
theorem LockedModify_sum_any_order (s : Store K Int) (k : K) (c0 : Int) (ds order : List Int)
    (h : (Get k s).1 = .ok c0) (hp : order.Perm ds) :
    (Get k (lockedModifyAll k (fun a b => a + b) order s)).1 = .ok (c0 + ds.sum) ∧
    (wrap64 c0 = c0 →
      (Get k (lockedModifyAll k sum64 order s)).1 = .ok (wrap64 (c0 + ds.sum))) := by
  cases hl : s.c.data.lookup k with
  | none => rw [Get_absent k s hl] at h; cases h
  | some e =>
    rw [Get_present k s e hl] at h
    have hv : e.value = c0 := by injection h
    refine ⟨?_, fun hc => ?_⟩
    · rw [Get_lockedModifyAll k _ order s e hl, foldl_add_eq_sum, hv, hp.sum_eq]
    · rw [Get_lockedModifyAll k _ order s e hl, hv, foldl_sum64 order c0 hc, hp.sum_eq]

/-- Witness for C7: counter 10 and the deltas 1, 2, 3 applied in the order 3, 1, 2. -/
theorem LockedModify_sum_any_order_witness :
    (Get 1 (lockedModifyAll 1 (fun a b => a + b) [3, 1, 2]
      (Add 1 10 (Store.start (NewCacheWithExpiration 10 : Cache Nat Int))).2)).1
      = .ok (10 + [1, 2, 3].sum) ∧
    (Get 1 (lockedModifyAll 1 sum64 [3, 1, 2]
      (Add 1 10 (Store.start (NewCacheWithExpiration 10 : Cache Nat Int))).2)).1
      = .ok (wrap64 (10 + [1, 2, 3].sum)) :=
  ⟨(LockedModify_sum_any_order
      (Add 1 10 (Store.start (NewCacheWithExpiration 10 : Cache Nat Int))).2 1 10 [1, 2, 3]
      [3, 1, 2] (by rfl) (by decide)).1,
   (LockedModify_sum_any_order
      (Add 1 10 (Store.start (NewCacheWithExpiration 10 : Cache Nat Int))).2 1 10 [1, 2, 3]
      [3, 1, 2] (by rfl) (by decide)).2 (by decide)⟩

/-- C8: `Remove k` returns an error if and only if `k` is absent; when `k` is present it
succeeds, `Get k` fails afterwards, the timer held by the removed entry is not pending
any more, and in every case no call of the expiration notifier is recorded. -/
theorem Remove_result_and_effect (s : Store K V) (k : K) :
    ((∃ msg, (Remove k s).1 = .error msg) ↔ present k s = false) ∧
    (present k s = false → (Remove k s).1 = .error "Item does not exist") ∧
    (∀ e : entry V, s.c.data.lookup k = some e →
      (Remove k s).1 = .ok () ∧
      (Get k (Remove k s).2).1 = .error "Item does not exist" ∧
      (∀ id, e.timer = some id → isPending id (Remove k s).2 = false)) ∧
    (Remove k s).2.notified = s.notified := by
  unfold present Remove
  cases hl : s.c.data.lookup k with
  | none =>
    rw [removeNotify_absent k false s hl]
    refine ⟨⟨fun _ => rfl, fun _ => ⟨_, rfl⟩⟩, fun _ => rfl, ?_, rfl⟩
    intro e he
    cases he
  | some e =>
    rw [removeNotify_present k false s e hl, callExpirer_false]
    refine ⟨⟨?_, ?_⟩, ?_, ?_, ?_⟩
    · rintro ⟨msg, h⟩; cases h
    · intro h; cases h
    · intro h; cases h
    · intro e1 he
      cases he
      refine ⟨rfl, ?_, ?_⟩
      · rw [Get_absent k _ (by rw [setData_data]; exact AList.lookup_erase _ _)]
      · intro id hid
        rw [hid, isPending_setData, isPending_stopTimer]
    · rw [setData_notified, stopTimer_notified]

/-- Witness for C8: key 1 is present with timer 0 in a store with a notifier; after
`Remove 1` that timer is not pending. -/
theorem Remove_result_and_effect_witness :
    isPending 0 (Remove 1 (Add 1 10
      (Store.start (NewCacheWithExpirationNotifier 10 (some 7) : Cache Nat Int))).2).2 = false :=
  ((Remove_result_and_effect
      (Add 1 10 (Store.start (NewCacheWithExpirationNotifier 10 (some 7) : Cache Nat Int))).2
      1).2.2.1 { value := 10, timestamp := 0, timer := some 0, expirer := some 7 }
      (by rfl)).2.2 0 (by rfl)

/-- C9: `AddOrUpdate k v` has no failing outcome; afterwards `Get k` returns `v`, `SizeOf`
has grown by exactly one when `k` was absent and is unchanged when `k` was present, and in
that case the timer held by the previous entry is not pending any more. -/
theorem AddOrUpdate_effect (s : Store K V) (k : K) (v : V) :
    (Get k (AddOrUpdate k v s)).1 = .ok v ∧
    (SizeOf (AddOrUpdate k v s)).1 =
      (if present k s = true then (SizeOf s).1 else (SizeOf s).1 + 1) ∧
    (∀ (e : entry V) (id : Nat), s.c.data.lookup k = some e → e.timer = some id →
      isPending id (AddOrUpdate k v s) = false) := by
  unfold present
  cases hl : s.c.data.lookup k with
  | none =>
    rw [AddOrUpdate_absent k v s hl]
    refine ⟨?_, ?_, ?_⟩
    · rw [Get_present k _ _ (by rw [setData_data]; exact AList.lookup_insert _)]
    · simp only [SizeOf, setData_data, length_insert, armTimer_c, hl]
    · intro e id he
      cases he
  | some e =>
    rw [AddOrUpdate_present k v s e hl]
    refine ⟨?_, ?_, ?_⟩
    · rw [Get_present k _ _ (by rw [setData_data]; exact AList.lookup_insert _)]
    · simp only [SizeOf, setData_data, length_insert, stopTimer_c, armTimer_c, hl]
    · intro e1 id he hid
      cases he
      rw [hid, isPending_setData, isPending_stopTimer]

/-- Witness for C9: replacing the entry of key 1 cancels its timer 0. -/
theorem AddOrUpdate_effect_witness :
    isPending 0 (AddOrUpdate 1 20 (Add 1 10
      (Store.start (NewCacheWithExpiration 10 : Cache Nat Int))).2) = false :=
  (AddOrUpdate_effect (Add 1 10 (Store.start (NewCacheWithExpiration 10 : Cache Nat Int))).2
    1 20).2.2 { value := 10, timestamp := 0, timer := some 0, expirer := none } 0
    (by rfl) (by rfl)

/-- C2 fails on the code: under lifetime 10, key 1 is added at time 0, a second Add on
key 1 fails at time 1, Update succeeds at time 5, and at time 11 (before 5 + 10) the timer
armed by the failed Add fires and evicts the updated entry, with no Remove in between. -/
theorem sliding_expiration_broken_by_failed_Add :
    (run (Store.start (NewCacheWithExpirationNotifier 10 (some 7) : Cache Nat Nat))
        (failedAddHistory.take 2)).map (fun s => (Add 1 200 s).1)
      = some (.error "Item Exists - Use update") ∧
    (run (Store.start (NewCacheWithExpirationNotifier 10 (some 7) : Cache Nat Nat))
        (failedAddHistory.take 4)).map (fun s => ((Update 1 300 s).1, s.now))
      = some (.ok (), 5) ∧
    (run (Store.start (NewCacheWithExpirationNotifier 10 (some 7) : Cache Nat Nat))
        (failedAddHistory.take 6)).map (fun s => ((Get 1 s).1, s.now))
      = some (.ok 300, 11) ∧
    (run (Store.start (NewCacheWithExpirationNotifier 10 (some 7) : Cache Nat Nat))
        failedAddHistory).map (fun s => ((Get 1 s).1, s.now, s.notified))
      = some (.error "Item does not exist", 11, [(7, 1, 300)]) ∧
    (11 : Int) < 5 + 10 := by
  refine ⟨by rfl, by rfl, by rfl, by rfl, by decide⟩

/-- C4 fails on the code: after a successful Add and a failed Add on key 1, timer 1 (armed
by the failed call) is pending although the entry of key 1 holds timer 0, so the
timer/entry invariant does not hold in this reachable state. -/
theorem timerEntryInvariant_broken_by_failed_Add :
    ∃ s : Store Nat Nat,
      run (Store.start (NewCacheWithExpiration 10 : Cache Nat Nat)) [.add 1 100, .add 1 200]
        = some s ∧
      (Add 1 200 (Add 1 100 (Store.start (NewCacheWithExpiration 10 : Cache Nat Nat))).2).1
        = .error "Item Exists - Use update" ∧
      isPending 1 s = true ∧
      (s.c.data.lookup 1).map (fun e => e.timer) = some (some 0) ∧
      ¬ timerEntryInvariant s := by
  refine ⟨_, rfl, by rfl, by rfl, by rfl, ?_⟩
  intro h
  obtain ⟨e, he, hid⟩ := h.2 1 { key := 1, deadline := 10, status := .pending } (by rfl) rfl
  have he2 : e = { value := 100, timestamp := 0, timer := some 0, expirer := none } := by
    have : some e = some { value := 100, timestamp := 0, timer := some 0, expirer := none } := by
      rw [← he]; rfl
    injection this
  rw [he2] at hid
  simp at hid

/-- C11: a timer callback that runs for a key that is no longer in the store observes
"already removed": `removeNotify k true` on an absent key returns the error "Item does
not exist" and leaves the whole state (entries, timers, notifier calls) as it was; the
timer closure then only logs its warning. -/
theorem removeNotify_absent_is_noop (s : Store K V) (k : K) (h : present k s = false) :
    (removeNotify k true s).1 = .error "Item does not exist" ∧
    (removeNotify k true s).2 = s ∧
    (timerFunc k s).notified = s.notified ∧
    (timerFunc k s).c = s.c ∧
    (timerFunc k s).timers = s.timers ∧
    (timerFunc k s).warned = s.warned ++ [k] := by
  have hl : s.c.data.lookup k = none := by
    unfold present at h
    cases hh : s.c.data.lookup k with
    | none => rfl
    | some e => rw [hh] at h; cases h
  have hr := removeNotify_absent k true s hl
  have ht : timerFunc k s = warn k s := by
    unfold timerFunc
    rw [hr]
  rw [hr, ht]
  exact ⟨rfl, rfl, rfl, rfl, rfl, rfl⟩

/-- Witness for C11: key 1 was removed explicitly before the callback runs. -/
theorem removeNotify_absent_is_noop_witness :
    (removeNotify 1 true (Remove 1 (Add 1 10
      (Store.start (NewCacheWithExpirationNotifier 10 (some 7) : Cache Nat Nat))).2).2).1
      = .error "Item does not exist" ∧
    (timerFunc 1 (Remove 1 (Add 1 10
      (Store.start (NewCacheWithExpirationNotifier 10 (some 7) : Cache Nat Nat))).2).2).notified
      = [] :=
  ⟨(removeNotify_absent_is_noop (Remove 1 (Add 1 10
      (Store.start (NewCacheWithExpirationNotifier 10 (some 7) : Cache Nat Nat))).2).2 1
      (by rfl)).1,
   (removeNotify_absent_is_noop (Remove 1 (Add 1 10
      (Store.start (NewCacheWithExpirationNotifier 10 (some 7) : Cache Nat Nat))).2).2 1
      (by rfl)).2.2.1⟩

/-- C12: a flow context returned by NewTCPConnection starts in state TCPSynSend, and after
any sequence of method calls that ends with `SetState st` (for every value `st`, in any
order) GetState returns `st`; in particular this holds along the six states in order. -/
theorem GetState_reflects_latest_SetState (tl : Int) (b : Bool) (nonse : List Nat)
    (c : TCPConnection) (ops : List ConnOp) (st : TCPFlowState) :
    GetState (NewTCPConnection b nonse) = TCPSynSend ∧
    GetState (applyOps tl c (ops ++ [.setState st])) = st ∧
    (List.map (fun n => GetState (applyOps tl (NewTCPConnection b nonse)
        (List.map ConnOp.setState
          (List.take n [TCPSynSend, TCPSynReceived, TCPSynAckSend, TCPSynAckReceived,
            TCPAckSend, TCPAckProcessed])))) [1, 2, 3, 4, 5, 6]
      = [TCPSynSend, TCPSynReceived, TCPSynAckSend, TCPSynAckReceived, TCPAckSend,
          TCPAckProcessed]) := by
  refine ⟨rfl, ?_, ?_⟩
  · rw [applyOps_append]
    exact SetState_state tl st _
  · simp [applyOps, ConnOp.apply, GetState, SetState_state]

/-- C13 fails on the code as stated: with trace logging enabled, `SetState TCPSynReceived` on a fresh
flow (state TCPSynSend) appends exactly one line, and that line renders the new state twice
(once inside the text of the connection, which is taken after the assignment) and the
authentication context, but not the prior state TCPSynSend. -/
theorem SetState_record_lacks_prior_state :
    (NewTCPConnection false [1, 2, 3]).state = TCPSynSend ∧
    (SetState 1 TCPSynReceived (NewTCPConnection false [1, 2, 3])).logs =
      [.setState { state := TCPSynReceived, auth := (NewTCPConnection false [1, 2, 3]).Auth }
        TCPSynReceived] ∧
    (SetState 1 TCPSynReceived (NewTCPConnection false [1, 2, 3])).logs ≠
      [.setState { state := TCPSynSend, auth := (NewTCPConnection false [1, 2, 3]).Auth }
        TCPSynReceived] := by
  refine ⟨rfl, by rfl, by decide⟩

/-- C13 amended: with trace logging enabled, `SetState new` on any flow appends exactly
one line to the log of the flow; the line holds the text of the connection taken after
the assignment (so its state is `new`, with the authentication context as it is at the
time of the call) and the new state `new`; the prior state is not recorded. -/
theorem SetState_record_content (tl : Int) (new : TCPFlowState) (c : TCPConnection)
    (h : tl ≠ 0) :
    (SetState tl new c).logs =
      c.logs ++ [.setState { state := new, auth := c.Auth } new] ∧
    (SetState tl new c).logs.length = c.logs.length + 1 ∧
    (SetState tl new c).state = new := by
  have hl := SetState_logs_traced tl new c h
  refine ⟨hl, ?_, SetState_state tl new c⟩
  rw [hl, List.length_append]
  rfl

/-- Witness for C13 amended: a reported flow in state TCPSynReceived moves to
TCPSynAckSend with trace logging set to 1. -/
theorem SetState_record_content_witness :
    (SetState 1 TCPSynAckSend (applyOps 1 (NewTCPConnection false [1, 2, 3])
      [.setState TCPSynReceived, .setReported false])).logs.length = 3 :=
  (SetState_record_content 1 TCPSynAckSend (applyOps 1 (NewTCPConnection false [1, 2, 3])
    [.setState TCPSynReceived, .setReported false]) (by decide)).2.1

/-- C14 fails on the code as stated: on a flow built by `NewTCPConnection true`, on which
SetReported was never called, Cleanup writes the debug record "Connection reported". -/
theorem Cleanup_reported_without_SetReported :
    List.any ([] : List ConnOp) ConnOp.isSetReported = false ∧
    (Cleanup true (applyOps 1 (NewTCPConnection true [1, 2, 3]) [])).1.level = .debug ∧
    (Cleanup true (applyOps 1 (NewTCPConnection true [1, 2, 3]) [])).1.msg
      = "Connection reported" := by
  refine ⟨rfl, by rfl, by rfl⟩

/-- C14 amended: after any sequence of method calls on a flow built by
`NewTCPConnection b`, Cleanup writes the error record "Connection not reported" if and
only if `b` is false and the sequence has no SetReported; it writes the debug record
"Connection reported" if and only if `b` is true or SetReported was called. -/
theorem Cleanup_record_iff (tl : Int) (b e : Bool) (nonse : List Nat) (ops : List ConnOp) :
    (((Cleanup e (applyOps tl (NewTCPConnection b nonse) ops)).1.level = .error ∧
      (Cleanup e (applyOps tl (NewTCPConnection b nonse) ops)).1.msg
        = "Connection not reported") ↔
      (b = false ∧ ops.any ConnOp.isSetReported = false)) ∧
    (((Cleanup e (applyOps tl (NewTCPConnection b nonse) ops)).1.level = .debug ∧
      (Cleanup e (applyOps tl (NewTCPConnection b nonse) ops)).1.msg
        = "Connection reported") ↔
      (b = true ∨ ops.any ConnOp.isSetReported = true)) := by
  obtain ⟨h1, h2⟩ := Cleanup_record e (applyOps tl (NewTCPConnection b nonse) ops)
  rw [h1, h2, applyOps_flowReported]
  have hb : (NewTCPConnection b nonse).flowReported = b := rfl
  rw [hb]
  cases b <;> cases ops.any ConnOp.isSetReported <;> simp

/-- C15 fails on the code as stated: with trace logging enabled, the first SetReported
on a flow freshly built by `NewTCPConnection true` appends a line that carries the
duplicate-reporting flag. -/
theorem SetReported_first_call_flagged :
    (NewTCPConnection true [1, 2, 3]).logs = [] ∧
    (SetReported 1 false (NewTCPConnection true [1, 2, 3])).logs =
      [.flowReported true false (connText (NewTCPConnection true [1, 2, 3]))] := by
  refine ⟨rfl, by rfl⟩

/-- C15 amended: with trace logging enabled, a SetReported call that follows any sequence
of method calls on a flow built by `NewTCPConnection b` appends exactly one line; the line
carries the duplicate-reporting flag if and only if `b` is true or SetReported was called
before; the call always goes through and the flow is reported afterwards. -/
theorem SetReported_flag_iff (tl : Int) (b dropped : Bool) (nonse : List Nat)
    (ops : List ConnOp) (h : tl ≠ 0) :
    (∃ flag : Bool,
      (SetReported tl dropped (applyOps tl (NewTCPConnection b nonse) ops)).logs =
        (applyOps tl (NewTCPConnection b nonse) ops).logs ++
          [.flowReported flag dropped (connText (applyOps tl (NewTCPConnection b nonse) ops))] ∧
      (flag = true ↔ (b = true ∨ ops.any ConnOp.isSetReported = true))) ∧
    (SetReported tl dropped (applyOps tl (NewTCPConnection b nonse) ops)).flowReported
      = true := by
  refine ⟨⟨_, SetReported_logs_traced tl dropped _ h, ?_⟩, SetReported_flowReported tl dropped _⟩
  rw [applyOps_flowReported]
  have hb : (NewTCPConnection b nonse).flowReported = b := rfl
  rw [hb]
  cases b <;> cases ops.any ConnOp.isSetReported <;> simp

/-- Witness for C15 amended: a flow built by `NewTCPConnection false`, reported a second
time after a state change. -/
theorem SetReported_flag_iff_witness :
    (SetReported 1 true (applyOps 1 (NewTCPConnection false [1, 2, 3])
      [.setReported false, .setState TCPSynReceived])).flowReported = true :=
  (SetReported_flag_iff 1 false true [1, 2, 3] [.setReported false, .setState TCPSynReceived]
    (by decide)).2

/-- C17: none of SetState, SetReported, SetPacketInfo, Cleanup and String changes any field
of `Auth`, for every flow context and every argument; hence after any sequence of these
calls on a flow built by NewTCPConnection the local nonce is the one set at creation. -/
theorem Auth_unchanged_by_methods (tl : Int) (c : TCPConnection) (st : TCPFlowState)
    (dropped e b : Bool) (flowHash tcpFlags : String) (nonse : List Nat) (ops : List ConnOp) :
    (SetState tl st c).Auth = c.Auth ∧
    (SetReported tl dropped c).Auth = c.Auth ∧
    (SetPacketInfo tl flowHash tcpFlags c).Auth = c.Auth ∧
    (Cleanup e c).2.Auth = c.Auth ∧
    (ConnOp.text.apply tl c).Auth = c.Auth ∧
    (applyOps tl c ops).Auth = c.Auth ∧
    (applyOps tl (NewTCPConnection b nonse) ops).Auth.LocalContext = nonse := by
  refine ⟨ConnOp.apply_Auth tl c (.setState st), ConnOp.apply_Auth tl c (.setReported dropped),
    ConnOp.apply_Auth tl c (.setPacketInfo flowHash tcpFlags),
    ConnOp.apply_Auth tl c (.cleanup e), rfl, applyOps_Auth tl ops c, ?_⟩
  rw [applyOps_Auth]
  rfl

/-- C20 fails on the code as stated: under lifetime 0, and under lifetime -5, Add arms a
timer that is due at once; its firing evicts the added entry with no Remove. -/
theorem Add_arms_timer_under_nonpositive_lifetime :
    isPending 0 (Add 1 10 (Store.start (NewCacheWithExpiration 0 : Cache Nat Nat))).2 = true ∧
    (fire 0 (Add 1 10 (Store.start (NewCacheWithExpiration 0 : Cache Nat Nat))).2).map
        (fun s => (Get 1 s).1) = some (.error "Item does not exist") ∧
    isPending 0 (Add 1 10 (Store.start (NewCacheWithExpiration (-5) : Cache Nat Nat))).2 = true ∧
    (fire 0 (Add 1 10 (Store.start (NewCacheWithExpiration (-5) : Cache Nat Nat))).2).map
        (fun s => (Get 1 s).1) = some (.error "Item does not exist") := by
  refine ⟨by rfl, by rfl, by rfl, by rfl⟩

/-- C20 amended: in every state reached from a freshly built store, Add arms an eviction
timer exactly when the configured lifetime is not `-1` (then one pending timer for the key,
due one lifetime after the call); for a store whose lifetime is `-1` (NewCache, or
NewCacheWithExpiration with `-1`) no timer is armed by Add, and after a successful Add the
entry stays present along every history without a Remove of its key, in which no timer
exists and no firing can be performed. -/
theorem Add_arms_timer_iff_lifetime_set (c : Cache K V) (hd : c.data = ∅)
    (before hist : List (Op K V)) (s s2 : Store K V) (k : K) (v : V)
    (hs : run (Store.start c) before = some s) :
    ((Add k v s).2.timers = s.timers ↔ c.lifetime = -1) ∧
    (c.lifetime ≠ -1 → (Add k v s).2.timers =
      s.timers ++ [{ key := k, deadline := s.now + c.lifetime, status := .pending }]) ∧
    (c.lifetime = -1 → (Add k v s).1 = .ok () → run (Add k v s).2 hist = some s2 →
      (∀ op ∈ hist, op ≠ .remove k) →
      present k s2 = true ∧ s2.timers = [] ∧ ∀ id, fire id s2 = none) := by
  obtain ⟨_, hlt, _⟩ := run_WF before _ s (WF_start c hd) hs
  have hlt1 : s.c.lifetime = c.lifetime := hlt
  refine ⟨?_, ?_, ?_⟩
  · rw [Add_timers]
    constructor
    · intro h
      by_contra hne
      rw [armTimer_timers_some k s (by rw [hlt1]; exact hne)] at h
      have := congrArg List.length h
      simp at this
    · intro h
      rw [armTimer_none k s (by rw [hlt1]; exact h)]
  · intro hne
    rw [Add_timers, armTimer_timers_some k s (by rw [hlt1]; exact hne), hlt1]
  · intro hl hadd hrun hrem
    obtain ⟨ht0, hl0⟩ := run_noTimers before _ s hl rfl hs
    have hk : s.c.data.lookup k = none := by
      cases hk : s.c.data.lookup k with
      | none => rfl
      | some e => rw [Add_present k v s e hk] at hadd; cases hadd
    have hA : (Add k v s).2.timers = [] ∧ (Add k v s).2.c.lifetime = -1 :=
      ⟨(step_noTimers s _ (.add k v) hl0 ht0 rfl).1, (step_noTimers s _ (.add k v) hl0 ht0 rfl).2.1⟩
    have hp : present k (Add k v s).2 = true := by
      rw [Add_absent k v s hk]
      exact present_insert k k _ _ (Or.inr rfl)
    obtain ⟨b1, b2, _⟩ := run_noTimers_present k hist _ s2 hA.2 hA.1 hp hrem hrun
    refine ⟨b1, b2, fun id => ?_⟩
    unfold fire
    rw [b2]
    rfl

/-- Witness for C20 amended: a store built by NewCache; key 1 is added, then key 2 is
added and removed and key 1 is updated. -/
theorem Add_arms_timer_iff_lifetime_set_witness :
    present 1 (Update 1 30 (Remove 2 (Add 2 20 (sleep 100
      (Add 1 10 (sleep 5 (Store.start (NewCache : Cache Nat Nat)))).2)).2).2).2 = true :=
  ((Add_arms_timer_iff_lifetime_set (NewCache : Cache Nat Nat) rfl [.sleep 5]
      [.sleep 100, .add 2 20, .remove 2, .update 1 30]
      (sleep 5 (Store.start (NewCache : Cache Nat Nat)))
      (Update 1 30 (Remove 2 (Add 2 20 (sleep 100
        (Add 1 10 (sleep 5 (Store.start (NewCache : Cache Nat Nat)))).2)).2).2).2
      1 10 (by rfl)).2.2 (by rfl) (by rfl) (by rfl)
      (by
        intro op hop
        simp only [List.mem_cons, List.mem_singleton, List.not_mem_nil, or_false] at hop
        rcases hop with h | h | h | h <;> rw [h] <;> intro hh <;> cases hh)).1

/-- C19: NewJWT fails for every identifier longer than the fixed issuer width (such as the
40-character name of the test), whatever the secrets; for every identifier that fits, with
secrets that are not nil, it succeeds with Issuer equal to the identifier right-padded
with spaces to exactly that width ("TRIREME" followed by 29 spaces, 36 characters) and
with ValidityPeriod equal to the one supplied. -/
theorem NewJWT_issuer_width (validity : Int) (issuer : String) (sec : Secrets) :
    (issuer.length > MaxServerName → ∀ secrets : Option Secrets,
      NewJWT validity issuer secrets = .error .InvalidConfiguration) ∧
    (issuer.length ≤ MaxServerName →
      ∃ cfg : JWTConfig, NewJWT validity issuer (some sec) = .ok cfg ∧
        cfg.Issuer = issuer ++ String.mk (List.replicate (MaxServerName - issuer.length) ' ') ∧
        cfg.Issuer.length = MaxServerName ∧
        cfg.ValidityPeriod = validity) ∧
    (NewJWT 10 "0123456789012345678901234567890123456789" (some (.psk 1))
      = .error .InvalidConfiguration) ∧
    ((NewJWT 10 "TRIREME" (some (.psk 1))).map (fun cfg => cfg.Issuer)
      = .ok "TRIREME                             ") ∧
    ("TRIREME                             ".length = 36) := by
  refine ⟨?_, ?_, by rfl, by rfl, by decide⟩
  · intro h secrets
    unfold NewJWT
    rw [if_pos h]
  · intro h
    have h2 : ¬ issuer.length > MaxServerName := Nat.not_lt.mpr h
    have hlen : (issuer ++ String.mk (List.replicate (MaxServerName - issuer.length) ' ')).length
        = MaxServerName := by
      rw [String.length_append]
      show issuer.length + (List.replicate (MaxServerName - issuer.length) ' ').length = _
      rw [List.length_replicate]
      omega
    unfold NewJWT
    rw [if_neg h2]
    cases sec with
    | psk key => exact ⟨_, rfl, rfl, hlen, rfl⟩
    | pki a b c => exact ⟨_, rfl, rfl, hlen, rfl⟩

/-- Witness for C19: the identifier "TRIREME" with a shared secret fits, the 40-character
name of the test does not. -/
theorem NewJWT_issuer_width_witness :
    (∃ cfg : JWTConfig, NewJWT 10 "TRIREME" (some (.psk 1)) = .ok cfg ∧
      cfg.Issuer = "TRIREME" ++ String.mk (List.replicate (MaxServerName - "TRIREME".length) ' ') ∧
      cfg.Issuer.length = MaxServerName ∧
      cfg.ValidityPeriod = 10) ∧
    NewJWT 10 "0123456789012345678901234567890123456789" (some (.pki 1 2 3))
      = .error .InvalidConfiguration :=
  ⟨(NewJWT_issuer_width 10 "TRIREME" (.psk 1)).2.1 (by decide),
   (NewJWT_issuer_width 10 "0123456789012345678901234567890123456789"
      (.psk 1)).1 (by decide) (some (.pki 1 2 3))⟩

/-- C18: for a codec built by NewJWT with valid secrets (shared secret or PKI) and every
claims value, decoding a token before it expires gives back the claims: for a token that
is not an ACK, decoded without a key, the tags, LCL and RMT of the input; for an ACK token,
decoded with the key the test passes, the same LCL and RMT and a nil tag set. -/
theorem codec_round_trip (sch : Scheme) (validity : Int)
    (issuer : String) (secrets : Secrets) (cfg : JWTConfig) (now later : Int)
    (claims : ConnectionClaims)
    (hnew : NewJWT validity issuer (some secrets) = .ok cfg)
    (hvalid : validSecrets sch secrets)
    (htime : later ≤ now + validity) :
    (∃ r : ConnectionClaims,
      Decode sch cfg later false (some (CreateAndSign sch cfg now false claims)) none = .ok r ∧
      r.T = claims.T ∧ r.LCL = claims.LCL ∧ r.RMT = claims.RMT) ∧
    (∃ r : ConnectionClaims,
      Decode sch cfg later true (some (CreateAndSign sch cfg now true claims))
        (ackKey secrets) = .ok r ∧
      r.T = none ∧ r.LCL = claims.LCL ∧ r.RMT = claims.RMT) := by
  obtain ⟨_, hsec, hval, _⟩ := NewJWT_ok validity issuer secrets cfg hnew
  have hv : validSecrets sch cfg.secrets := by rw [hsec]; exact hvalid
  have facts : ∀ (isAck : Bool),
      (CreateAndSign sch cfg now isAck claims).ack = isAck ∧
      (CreateAndSign sch cfg now isAck claims).method = cfg.signMethod ∧
      (CreateAndSign sch cfg now isAck claims).content.expiresAt = now + cfg.ValidityPeriod ∧
      (CreateAndSign sch cfg now isAck claims).content.claims =
        (if isAck then { claims with T := none } else claims) := by
    intro isAck
    unfold CreateAndSign
    cases cfg.secrets <;> exact ⟨rfl, rfl, rfl, rfl⟩
  have hexp : ∀ isAck : Bool,
      ¬ (CreateAndSign sch cfg now isAck claims).content.expiresAt < later := by
    intro isAck
    rw [(facts isAck).2.2.1, hval]
    omega
  have s1 := verifySignature_own sch cfg now false claims none hv (Or.inr ⟨rfl, rfl⟩)
  have s2 := verifySignature_own sch cfg now true claims (ackKey secrets) hv
    (Or.inl (by rw [hsec]))
  constructor
  · refine ⟨claims, ?_, rfl, rfl, rfl⟩
    unfold Decode
    simp only [(facts false).1, (facts false).2.1, ne_eq, not_true_eq_false, if_false,
      hexp false, s1, Bool.true_eq_false, (facts false).2.2.2]
    rfl
  · refine ⟨{ claims with T := none }, ?_, rfl, rfl, rfl⟩
    unfold Decode
    simp only [(facts true).1, (facts true).2.1, ne_eq, not_true_eq_false, if_false,
      hexp true, s2, Bool.true_eq_false, (facts true).2.2.2, if_true]

/-- Witness for C18: the toy scheme with PKI secrets, the claims of the test, validity 10,
a token created at time 100 and decoded at time 105. -/
theorem codec_round_trip_witness :
    (Decode toyScheme
        { ValidityPeriod := 10, Issuer := "TRIREME" ++ String.mk (List.replicate 29 ' '),
          signMethod := .ES256, secrets := .pki 7 7 0 }
        105 false
        (some (CreateAndSign toyScheme
          { ValidityPeriod := 10, Issuer := "TRIREME" ++ String.mk (List.replicate 29 ' '),
            signMethod := .ES256, secrets := .pki 7 7 0 } 100 false defaultClaims))
        none).toOption.map (fun r => (r.T, r.LCL, r.RMT))
      = some (defaultClaims.T, defaultClaims.LCL, defaultClaims.RMT) := by
  obtain ⟨r, h1, h2, h3, h4⟩ :=
    (codec_round_trip toyScheme 10 "TRIREME" (.pki 7 7 0)
      { ValidityPeriod := 10, Issuer := "TRIREME" ++ String.mk (List.replicate 29 ' '),
        signMethod := .ES256, secrets := .pki 7 7 0 } 100 105 defaultClaims
      (by rfl) ⟨by rfl, fun m => by simp [toyScheme]⟩ (by decide)).1
  rw [h1]
  simp [Except.toOption, h2, h3, h4]

/-- C21: with `TraceLogging` equal to 0, SetState changes only the state field, SetReported
changes only the reported flag (it sets it), SetPacketInfo changes nothing, and the log of
the flow is unchanged by each of them. -/
theorem no_trace_when_logging_disabled (c : TCPConnection) (st : TCPFlowState)
    (dropped : Bool) (flowHash tcpFlags : String) :
    SetState 0 st c = { c with state := st } ∧
    SetReported 0 dropped c = { c with flowReported := true } ∧
    SetPacketInfo 0 flowHash tcpFlags c = c ∧
    (SetState 0 st c).logs = c.logs ∧
    (SetReported 0 dropped c).logs = c.logs ∧
    (SetPacketInfo 0 flowHash tcpFlags c).logs = c.logs := by
  have h1 : SetState 0 st c = { c with state := st } := by simp [SetState]
  have h2 : SetReported 0 dropped c = { c with flowReported := true } := by
    cases h : c.flowReported <;> simp [SetReported, h]
    cases c
    simp_all
  have h3 : SetPacketInfo 0 flowHash tcpFlags c = c := by simp [SetPacketInfo]
  refine ⟨h1, h2, h3, ?_, ?_, ?_⟩
  · rw [h1]
  · rw [h2]
  · rw [h3]

/-- C22 fails on the code: with trace logging enabled, reportAcceptedFlow on a fresh
connection emits a flow event whose action is the accept constant, but the line it makes
SetReported append has `dropped` set, the same line reportRejectedFlow produces: reportFlow
passes the constant `true` to SetReported whatever the action is. -/
theorem reportAcceptedFlow_marks_dropped :
    (reportAcceptedFlow 1 "accept" { collector := [] }
        { SourceAddress := "10.0.0.1", DestinationAddress := "10.0.0.2", DestinationPort := 80 }
        (some (NewTCPConnection false [1, 2, 3])) "src" "dst"
        { ID := "ctx", Annotations := [] }).1.collector.map (fun r => r.Action) = ["accept"] ∧
    (reportAcceptedFlow 1 "accept" { collector := [] }
        { SourceAddress := "10.0.0.1", DestinationAddress := "10.0.0.2", DestinationPort := 80 }
        (some (NewTCPConnection false [1, 2, 3])) "src" "dst"
        { ID := "ctx", Annotations := [] }).2.map (fun c => c.logs)
      = some [.flowReported false true (connText (NewTCPConnection false [1, 2, 3]))] ∧
    (reportAcceptedFlow 1 "accept" { collector := [] }
        { SourceAddress := "10.0.0.1", DestinationAddress := "10.0.0.2", DestinationPort := 80 }
        (some (NewTCPConnection false [1, 2, 3])) "src" "dst"
        { ID := "ctx", Annotations := [] }).2.map (fun c => c.logs)
      ≠ some [.flowReported false false (connText (NewTCPConnection false [1, 2, 3]))] ∧
    (reportRejectedFlow 1 "reject" { collector := [] }
        { SourceAddress := "10.0.0.1", DestinationAddress := "10.0.0.2", DestinationPort := 80 }
        (some (NewTCPConnection false [1, 2, 3])) "src" "dst"
        { ID := "ctx", Annotations := [] } "NA").2.map (fun c => c.logs)
      = some [.flowReported false true (connText (NewTCPConnection false [1, 2, 3]))] := by
  refine ⟨by rfl, by rfl, by decide, by rfl⟩

/-- C23: in every state reached from a freshly built store, for distinct keys `k` and
`k1`, a step on `k` (Add, Update, AddOrUpdate, LockedModify, Get or Remove called on `k`,
or the firing of a timer armed for `k`) leaves the entry of `k1` as it was: the same
presence, value, timestamp and timer handle, and the timer it holds in the same status. -/
theorem key_isolation (c : Cache K V) (hd : c.data = ∅) (before : List (Op K V))
    (s s1 : Store K V) (k k1 : K) (op : Op K V)
    (hs : run (Store.start c) before = some s)
    (hne : k ≠ k1)
    (hop : opKey s op = some k)
    (hstep : step s op = some s1) :
    s1.c.data.lookup k1 = s.c.data.lookup k1 ∧
    present k1 s1 = present k1 s ∧
    (Get k1 s1).1 = (Get k1 s).1 ∧
    (∀ (e : entry V) (id : Nat), s.c.data.lookup k1 = some e → e.timer = some id →
      s1.timers[id]? = s.timers[id]? ∧ isPending id s1 = isPending id s) := by
  obtain ⟨hw, _, _⟩ := run_WF before _ s (WF_start c hd) hs
  have hk : opKey s op ≠ some k1 := by
    rw [hop]
    intro h
    injection h with h
    exact hne h
  obtain ⟨f1, f2, _⟩ := step_frame k1 s s1 op hw hk hstep
  refine ⟨f1, ?_, ?_, ?_⟩
  · unfold present
    rw [f1]
  · unfold Get
    rw [f1]
    cases s.c.data.lookup k1 <;> rfl
  · intro e id he hid
    obtain ⟨t, ht, htk⟩ := hw k1 e id he hid
    have h2 := f2 id t ht htk
    refine ⟨by rw [h2, ht], ?_⟩
    unfold isPending
    rw [h2, ht]

/-- Witness for C23: keys 1 and 2 are stored under lifetime 10; the timer of key 1 fires
at time 10 and the entry of key 2 still holds its pending timer 1. -/
theorem key_isolation_witness :
    ∃ s1 : Store Nat Nat,
      fire 0 (sleep 10 (Add 2 20 (Add 1 10
        (Store.start (NewCacheWithExpiration 10))).2).2) = some s1 ∧
      (Get 2 s1).1 = .ok 20 ∧ isPending 1 s1 = true := by
  obtain ⟨_, _, h3, h4⟩ :=
    key_isolation (NewCacheWithExpiration 10 : Cache Nat Nat) rfl
      [.add 1 10, .add 2 20, .sleep 10]
      (sleep 10 (Add 2 20 (Add 1 10 (Store.start (NewCacheWithExpiration 10))).2).2)
      (timerFunc 1 (markFired 0
        (sleep 10 (Add 2 20 (Add 1 10 (Store.start (NewCacheWithExpiration 10))).2).2)))
      1 2 (.fire 0) (by rfl) (by decide) (by rfl) (by rfl)
  refine ⟨timerFunc 1 (markFired 0
    (sleep 10 (Add 2 20 (Add 1 10 (Store.start (NewCacheWithExpiration 10))).2).2)),
    by rfl, ?_, ?_⟩
  · rw [h3]; rfl
  · rw [(h4 { value := 20, timestamp := 0, timer := some 1, expirer := none } 1
      (by rfl) rfl).2]
    rfl

/-- C24: with complete container infos and an implementor whose ConfigureRules and
UpdateRules succeed, the first Supervise of a contextID that is not tracked stores version
0, each later Supervise raises the stored version by exactly 1 (in Go `int` arithmetic)
and hands the raised version to UpdateRules, so after `n = rest.length + 1` calls, all
returning nil, the tracked version is `n - 1` (for every `n` up to `2 ^ 63`); and if
ConfigureRules or UpdateRules fails, Supervise returns that error and the contextID is
not tracked afterwards. -/
theorem Supervise_tracks_version (s : Config) (contextID : String) (info : PUInfo)
    (rest : List PUInfo) (hc : info.complete) :
    (present contextID s.versionTracker = false → s.impl.succeeds →
      (∀ i ∈ rest, i.complete) →
      ∃ s1 : Config,
        superviseAll contextID (info :: rest) s
          = some (List.replicate (rest.length + 1) none, s1) ∧
        trackedVersion contextID s1 = some (wrap64 rest.length) ∧
        ((rest.length : Int) < 2 ^ 63 → trackedVersion contextID s1 = some (rest.length : Int)) ∧
        s1.calls = s.calls ++ ImplCall.configureRules 0 contextID ::
          (List.range rest.length).map
            (fun i : Nat => ImplCall.updateRules (wrap64 ((i : Int) + 1)) contextID)) ∧
    (present contextID s.versionTracker = false →
      s.impl.ConfigureRules s.calls 0 contextID info = none →
      ∃ s1 : Config, Supervise contextID (some info) s = some (none, s1) ∧
        trackedVersion contextID s1 = some 0 ∧
        s1.calls = s.calls ++ [.configureRules 0 contextID]) ∧
    (∀ v : Int, trackedVersion contextID s = some v →
      s.impl.UpdateRules s.calls (wrap64 (v + 1)) contextID info = none →
      ∃ s1 : Config, Supervise contextID (some info) s = some (none, s1) ∧
        trackedVersion contextID s1 = some (wrap64 (v + 1)) ∧
        s1.calls = s.calls ++ [.updateRules (wrap64 (v + 1)) contextID]) ∧
    (∀ err : String, present contextID s.versionTracker = false →
      s.impl.ConfigureRules s.calls 0 contextID info = some err →
      ∃ s1 : Config, Supervise contextID (some info) s = some (some err, s1) ∧
        present contextID s1.versionTracker = false) ∧
    (∀ (v : Int) (err : String), trackedVersion contextID s = some v →
      s.impl.UpdateRules s.calls (wrap64 (v + 1)) contextID info = some err →
      ∃ s1 : Config, Supervise contextID (some info) s = some (some err, s1) ∧
        present contextID s1.versionTracker = false) := by
  have habs : present contextID s.versionTracker = false →
      s.versionTracker.c.data.lookup contextID = none := by
    intro h
    unfold present at h
    cases hh : s.versionTracker.c.data.lookup contextID with
    | none => rfl
    | some e => rw [hh] at h; cases h
  have hpres : ∀ s1 : Config, s1.versionTracker.c.data.lookup contextID = none →
      present contextID s1.versionTracker = false := by
    intro s1 h
    unfold present
    rw [h]
    rfl
  refine ⟨?_, ?_, ?_, ?_, ?_⟩
  · intro ha hok hrest
    obtain ⟨s0, h1, h2, h3, h4⟩ :=
      (Supervise_untracked contextID info s hc (habs ha)).1 (hok _ _ _ _).1
    obtain ⟨s1, k1, k2, k3, _⟩ := superviseAll_tracked contextID rest s0 0
      (by rw [h4]; exact hok) hrest (by decide) h2
    have k2' : trackedVersion contextID s1 = some (wrap64 rest.length) := by
      rw [k2, zero_add]
    refine ⟨s1, ?_, k2', ?_, ?_⟩
    · simp only [superviseAll, h1, k1, List.replicate_succ]
    · intro hlt
      rw [k2', wrap64_small _ (Int.natCast_nonneg _) hlt]
    · rw [k3, h3, List.append_assoc]
      simp only [List.singleton_append, zero_add]
  · intro ha hok
    obtain ⟨s1, h1, h2, h3, _⟩ := (Supervise_untracked contextID info s hc (habs ha)).1 hok
    exact ⟨s1, h1, h2, h3⟩
  · intro v ht hok
    obtain ⟨s1, h1, h2, h3, _⟩ := (Supervise_tracked contextID info s v hc ht).1 hok
    exact ⟨s1, h1, h2, h3⟩
  · intro err ha herr
    obtain ⟨s1, h1, h2, _⟩ := (Supervise_untracked contextID info s hc (habs ha)).2 err herr
    exact ⟨s1, h1, hpres s1 h2⟩
  · intro v err ht herr
    obtain ⟨s1, h1, h2, _⟩ := (Supervise_tracked contextID info s v hc ht).2 err herr
    exact ⟨s1, h1, hpres s1 h2⟩

/-- Witness for C24: three Supervise calls on a fresh supervisor leave version 2; and
when the contextID is tracked with version 1 and UpdateRules fails for version 2, Supervise
returns that error and the contextID is not tracked any more. -/
theorem Supervise_tracks_version_witness :
    (∃ s1 : Config,
      superviseAll "ctx" [sampleInfo, sampleInfo, sampleInfo] (newConfig okImplementor)
        = some ([none, none, none], s1) ∧
      trackedVersion "ctx" s1 = some 2) ∧
    (∃ s1 : Config,
      Supervise "ctx" (some sampleInfo)
        { versionTracker := AddOrUpdate "ctx"
            (.data { version := 1, ips := [], mark := "", port := "0" }) (Store.start NewCache)
          impl := failingImplementor, calls := [], warned := [] }
        = some (some "update failed", s1) ∧
      present "ctx" s1.versionTracker = false) := by
  constructor
  · obtain ⟨s1, h1, _, h3, _⟩ :=
      (Supervise_tracks_version (newConfig okImplementor) "ctx" sampleInfo
        [sampleInfo, sampleInfo] ⟨rfl, rfl⟩).1 (by rfl) (fun _ _ _ _ => ⟨rfl, rfl⟩)
        (by
          intro i hi
          simp only [List.mem_cons, List.mem_singleton, List.not_mem_nil, or_false, or_self] at hi
          rw [hi]
          exact ⟨rfl, rfl⟩)
    exact ⟨s1, h1, h3 (by decide)⟩
  · exact (Supervise_tracks_version
      { versionTracker := AddOrUpdate "ctx"
          (.data { version := 1, ips := [], mark := "", port := "0" }) (Store.start NewCache)
        impl := failingImplementor, calls := [], warned := [] }
      "ctx" sampleInfo [] ⟨rfl, rfl⟩).2.2.2.2 1 "update failed" (by rfl) (by rfl)

end claims

section claimsCounting
variable [DecidableEq K] [DecidableEq V]

/-- C16: in a store built with TCPConnectionExpirationNotifier, over every history of store
operations (explicit Remove included), timer firings and passing time in which the flow
`p` is stored at most once, the notifier runs Cleanup on `p` at most once, so at most one
Cleanup record about `p` is written; and the expiration path (a notifier call on `p`) and
the explicit path (a Remove that deletes the entry holding `p`) together succeed at most
once. -/
theorem Cleanup_at_most_once_per_flow (L : Int) (deref : V → Option TCPConnection) (p : V)
    (hist : List (Op K V)) (s : Store K V)
    (hrun : run (Store.start (NewCacheWithExpirationNotifier L (some tcpConnectionNotifier)))
      hist = some s)
    (honce : storesOf p
      (Store.start (NewCacheWithExpirationNotifier L (some tcpConnectionNotifier))) hist ≤ 1) :
    ((cleanupLog deref s).filter (fun x => decide (x.1 = p))).length ≤ 1 ∧
    notifiedCount p s + explicitRemovalsOf p
      (Store.start (NewCacheWithExpirationNotifier L (some tcpConnectionNotifier))) hist ≤ 1 := by
  have h := run_count p hist _ s hrun
  have h0 : notifiedCount p
      (Store.start (NewCacheWithExpirationNotifier L (some tcpConnectionNotifier) : Cache K V))
      = 0 := rfl
  have h1 : holders p
      (Store.start (NewCacheWithExpirationNotifier L (some tcpConnectionNotifier) : Cache K V))
      = 0 := rfl
  have h2 := cleanupLog_le deref p s
  rw [h0, h1] at h
  constructor <;> omega

/-- Witness for C16: flow 5 is added under key 1 with lifetime 10; its timer fires at
time 10 and runs Cleanup; the later Remove finds nothing and a second Add stores another
flow. -/
theorem Cleanup_at_most_once_per_flow_witness :
    ∃ s : Store Nat Nat,
      run (Store.start (NewCacheWithExpirationNotifier 10 (some tcpConnectionNotifier)))
        [.add 1 5, .sleep 10, .fire 0, .remove 1, .add 1 6] = some s ∧
      (cleanupLog (fun _ => some (NewTCPConnection false [])) s).map (fun x => x.1) = [5] ∧
      ((cleanupLog (fun _ => some (NewTCPConnection false [])) s).filter
        (fun x => decide (x.1 = 5))).length ≤ 1 :=
  ⟨_, by rfl, by rfl,
    (Cleanup_at_most_once_per_flow 10 (fun _ => some (NewTCPConnection false [])) 5
      [.add 1 5, .sleep 10, .fire 0, .remove 1, .add 1 6] _ (by rfl) (by decide)).1⟩

end claimsCounting

end Trireme
